import Mathlib

/-!
# tuv: the session state machine of the terminal UI

A shallow embedding of `pkg/ui/model.go` (the bubbletea model, its `Update`
fold and the commands it launches), of `pkg/scanner/scanner.go`
(`ScanProjects`, `getDirSize`, `FormatSize`, `RunUVCommand`) and of the parts
of `pkg/config` they use.

Conventions.
* Go `int` fields are `Int`; slices are `List`; `len xs` is `(xs.length : Int)`.
* A `tea.Cmd` is a value of the inductive type `Cmd`: the closures built by the
  source are recorded with the values they capture.
* The operating system, viper and the bubbles components are not part of the
  repository.  They are the fields of `Env W`, over an arbitrary world state
  `W`; every theorem quantifies over all of them.
* A result of type `Option` is `none` where Go panics.
-/

namespace Tuv

/-! ## Go errors -/

/-- A Go `error` value, as far as the program can observe it: the text of
`err.Error()` and the answer of `os.IsNotExist(err)`. -/
structure GoError where
  text : String
  notExist : Bool
deriving DecidableEq, Repr

/-- The method `err.Error()`. -/
def GoError.Error (e : GoError) : String := e.text

/-- The function `os.IsNotExist(err)` for an `err` that may be nil. -/
def IsNotExist : Option GoError → Bool
  | none => false
  | some e => e.notExist

/-- The error part of a Go `(value, error)` result; `none` is nil. -/
def errOf {α : Type} : Except GoError α → Option GoError
  | .ok _ => none
  | .error e => some e

/-! ## pkg/scanner -/

/-- The struct `scanner.UVProject`; `LastModified` is kept as a timestamp. -/
structure UVProject where
  Name : String
  Path : String
  PythonVersion : String
  Size : Int
  LastModified : Int
  HasVenv : Bool
  HasLock : Bool
deriving DecidableEq, Repr

/-- The struct `scanner.Scanner`. -/
structure Scanner where
  ParentDir : String
deriving DecidableEq, Repr

/-- The constructor `scanner.NewScanner`. -/
def NewScanner (parentDir : String) : Scanner := { ParentDir := parentDir }

/-! ## pkg/config -/

/-- The struct `config.Config`.  The model holds a pointer to it; the
embedding keeps the pointed-to value inside the model, which is equivalent
because `Update` always returns the model that holds the same pointer. -/
structure Config where
  ParentDirectory : String
  ConfigFileLocation : String
deriving DecidableEq, Repr

/-! ## Keys and key bindings (bubbletea, bubbles/key) -/

/-- A `tea.KeyMsg`, identified by the value of its `String()` method
("up", "enter", "ctrl+c", "q", ...). -/
structure KeyMsg where
  str : String
deriving DecidableEq, Repr

/-- A `key.Binding`: the keys it answers to, and whether it is disabled. -/
structure Binding where
  keys : List String
  disabled : Bool := false
deriving DecidableEq, Repr

/-- The constructor `key.NewBinding(key.WithKeys(...))`. -/
def NewBinding (keys : List String) : Binding := { keys := keys }

/-- The function `key.Matches(msg, binding)`. -/
def Matches (k : KeyMsg) (b : Binding) : Bool :=
  b.keys.contains k.str && !b.disabled

/-- The struct `KeyMap`. -/
structure KeyMap where
  Up : Binding
  Down : Binding
  Select : Binding
  Back : Binding
  Quit : Binding
  Scan : Binding
deriving DecidableEq, Repr

/-- The function `DefaultKeyMap`. -/
def DefaultKeyMap : KeyMap :=
  { Up := NewBinding ["up", "k"]
    Down := NewBinding ["down", "j"]
    Select := NewBinding ["enter"]
    Back := NewBinding ["esc"]
    Quit := NewBinding ["ctrl+c", "q"]
    Scan := NewBinding ["s"] }

/-! ## Application state, messages and commands -/

/-- The enumeration `AppState`. -/
inductive AppState
  | StateMainMenu
  | StateFirstRun
  | StateProjectList
  | StateProjectDetail
  | StateNewProject
  | StateLoading
deriving DecidableEq, Repr

open AppState

/-- A `tea.Cmd`.  `scanProjects s` is the method value `m.scanProjects` (it
reads only the scanner of the model it was taken from); `createProject` is
the closure built by `updateNewProject`, with the values it captures;
`component` is a command handed back by a bubbles component. -/
inductive Cmd
  | nil
  | Quit
  | scanProjects (s : Scanner)
  | createProject (s : Scanner) (projectPath projectName : String)
  | component (tag : Nat)
  | batch (first : Cmd) (rest : Cmd)
deriving DecidableEq, Repr

/-- The function `tea.Batch`: nil commands are dropped, no command gives nil,
one command gives that command. -/
def Batch : List Cmd → Cmd
  | [] => Cmd.nil
  | c :: cs =>
    if c = Cmd.nil then Batch cs
    else if Batch cs = Cmd.nil then c
    else Cmd.batch c (Batch cs)

/-- The bubbles `textinput.Model`: its value, cursor position, focus flag and
character limit. -/
structure TextInput where
  value : String
  pos : Nat
  focus : Bool
  CharLimit : Nat
deriving DecidableEq, Repr

/-- The method `textinput.Model.Value`. -/
def TextInput.Value (t : TextInput) : String := t.value

/-- The sanitizer that `textinput.Model.SetValue` applies to the new value:
the replacement character and the control characters are dropped, except
that a tab, a newline and a carriage return each become a space. -/
def sanitizeChars : List Char → List Char
  | [] => []
  | c :: cs =>
    if c.toNat = 0xFFFD then sanitizeChars cs
    else if c.toNat = 13 ∨ c.toNat = 10 then Char.ofNat 32 :: sanitizeChars cs
    else if c.toNat = 9 then Char.ofNat 32 :: sanitizeChars cs
    else if c.toNat < 32 ∨ (127 ≤ c.toNat ∧ c.toNat ≤ 159) then sanitizeChars cs
    else c :: sanitizeChars cs

/-- The method `textinput.Model.SetValue`: the value is sanitized and cut to
`CharLimit` (when positive), and the cursor is kept inside it. -/
def TextInput.SetValue (t : TextInput) (s : String) : TextInput :=
  let runes := sanitizeChars s.toList
  let v := if 0 < t.CharLimit ∧ t.CharLimit < runes.length then runes.take t.CharLimit else runes
  { t with
    value := String.mk v
    pos := if (t.pos = 0 ∧ t.value.length = 0) ∨ v.length < t.pos then v.length else t.pos }

/-- The method `textinput.Model.Focus`. -/
def TextInput.Focus (t : TextInput) : TextInput := { t with focus := true }

/-- The bubbles `spinner.Model`: the current frame, its id and tag. -/
structure Spinner where
  frame : Nat
  id : Nat
  tag : Nat
deriving DecidableEq, Repr

/-- A `spinner.TickMsg`. -/
structure TickMsg where
  id : Nat
  tag : Nat
deriving DecidableEq, Repr

/-- A `tea.Msg` as `Update` distinguishes them.  `errMsg` carries the error
value; `other` stands for every message type the type switch does not name. -/
inductive Msg
  | KeyMsg (k : KeyMsg)
  | WindowSizeMsg (Width Height : Int)
  | TickMsg (t : TickMsg)
  | projectsFoundMsg (projects : List UVProject)
  | projectCreatedMsg (projects : List UVProject) (projectName : String)
  | statusMsg (msg : String)
  | errMsg (err : GoError)
  | other (tag : Nat)
deriving DecidableEq, Repr

/-- The struct `Model`. -/
structure Model where
  config : Config
  scanner : Scanner
  keyMap : KeyMap
  state : AppState
  width : Int
  height : Int
  menuItems : List String
  selectedMenu : Int
  projects : List UVProject
  selectedProject : Int
  textInput : TextInput
  spinner : Spinner
  loading : Bool
  loadingMsg : String
  statusMsg : String
  error : String
deriving DecidableEq, Repr

/-! ## The environment -/

/-- What `os.Stat` reports about an existing path. -/
structure FileInfo where
  IsDir : Bool
  ModTime : Int
  Size : Int := 0
deriving DecidableEq, Repr

/-- An `os.DirEntry` of a directory listing: the name of the entry and the
answer of `entry.IsDir()`. -/
structure DirEntry where
  Name : String
  IsDir : Bool
deriving DecidableEq, Repr

/-- The collaborators outside the repository, over a world state `W`.
An operation that can change the world returns the new world together with
its error (nil is `none`); a failed operation may still have changed it. -/
structure Env (W : Type) where
  /-- The function `os.UserHomeDir`. -/
  UserHomeDir : W → Except GoError String
  /-- The function `os.Stat`. -/
  Stat : W → String → Except GoError FileInfo
  /-- The function `os.MkdirAll(path, 0755)`. -/
  MkdirAll : W → String → W × Option GoError
  /-- The function `os.WriteFile(path, data, 0644)`. -/
  WriteFile : W → String → String → W × Option GoError
  /-- The function `os.Remove`; every caller drops its error. -/
  Remove : W → String → W
  /-- The function `filepath.Join` of two elements. -/
  Join : String → String → String
  /-- The viper calls of `Config.Save`: write `parent_directory` to a file. -/
  WriteConfig : W → String → String → W × Option GoError
  /-- The method `textinput.Model.Update`. -/
  textInputUpdate : TextInput → Msg → TextInput × Cmd
  /-- The method `spinner.Model.Update`. -/
  spinnerUpdate : Spinner → TickMsg → Spinner × Cmd
  /-- The function `os.ReadDir`: the entries in directory-listing order. -/
  ReadDir : W → String → Except GoError (List DirEntry)
  /-- The method `entry.Info()` of an entry listed from the directory `dir`;
  on an error the file information it returns is nil. -/
  EntryInfo : W → (dir : String) → DirEntry → Except GoError FileInfo
  /-- The function `os.ReadFile`. -/
  ReadFile : W → String → Except GoError String
  /-- The call `exec.Command("du", "-sk", path).Output()`; it only reads. -/
  DiskUsage : W → String → Except GoError String
  /-- The calls that `filepath.Walk(path, fn)` makes to `fn` as long as `fn`
  returns nil: the file information, or the error, of each visited path. -/
  Walk : W → String → List (Except GoError FileInfo)
  /-- The call `cmd.CombinedOutput()` of the command `name args...` run in
  the directory `dir`. -/
  CombinedOutput : W → (dir : String) → (name : String) → (args : List String) →
    W × String × Option GoError

/-- The method `Config.Save`. -/
def Config.Save {W : Type} (env : Env W) (w : W) (c : Config) : W × Option GoError :=
  env.WriteConfig w c.ConfigFileLocation c.ParentDirectory

/-- The text "Scanning for uv projects...", the loading message of every scan. -/
def scanningMsg : String := "Scanning for uv projects..."

/-! ## Go strings and strconv -/

/-- The function `unicode.IsSpace`. -/
def isSpace (c : Char) : Bool :=
  decide (c.toNat ∈ [0x09, 0x0A, 0x0B, 0x0C, 0x0D, 0x20, 0x85, 0xA0, 0x1680, 0x2028, 0x2029,
    0x202F, 0x205F, 0x3000]) || decide (0x2000 ≤ c.toNat ∧ c.toNat ≤ 0x200A)

/-- The function `strings.HasPrefix`. -/
def HasPrefix (s pre : String) : Bool := pre.toList.isPrefixOf s.toList

/-- The slice `s[1:]` of a string whose first character is one byte long. -/
def dropFirst (s : String) : String := String.mk (s.toList.drop 1)

/-- The function `strings.TrimSpace` on the characters of a string. -/
def trimSpaceChars (cs : List Char) : List Char :=
  ((cs.dropWhile isSpace).reverse.dropWhile isSpace).reverse

/-- The function `strings.TrimSpace`. -/
def TrimSpace (s : String) : String := String.mk (trimSpaceChars s.toList)

/-- The pieces of a list of characters between the occurrences of `sep`;
there is always at least one piece. -/
def splitChars (sep : Char) : List Char → List (List Char)
  | [] => [[]]
  | c :: cs =>
    if c = sep then [] :: splitChars sep cs
    else
      match splitChars sep cs with
      | [] => [[c]]
      | piece :: pieces => (c :: piece) :: pieces

/-- The function `strings.Split(s, sep)` for a separator of one character. -/
def Split (s : String) (sep : Char) : List String :=
  (splitChars sep s.toList).map String.mk

/-- The words of a list of characters: the maximal runs of characters that are
not white space.  `cur` is the word being read, last character first. -/
def fieldsChars : List Char → List Char → List (List Char)
  | cur, [] => if cur = [] then [] else [cur.reverse]
  | cur, c :: cs =>
    if isSpace c then
      if cur = [] then fieldsChars [] cs else cur.reverse :: fieldsChars [] cs
    else fieldsChars (c :: cur) cs

/-- The function `strings.Fields`. -/
def Fields (s : String) : List String := (fieldsChars [] s.toList).map String.mk

/-- The function `strconv.ParseInt(s, 10, 64)`: an optional sign and decimal
digits, inside the range of `int64`; `none` is an error. -/
def ParseInt (s : String) : Option Int :=
  let cs := s.toList
  let signed : Bool × List Char :=
    match cs with
    | c :: rest => if c = Char.ofNat 45 then (true, rest)
      else if c = Char.ofNat 43 then (false, rest) else (false, cs)
    | [] => (false, [])
  if signed.2 = [] ∨ ¬ signed.2.all Char.isDigit then none
  else
    let v : Int := signed.2.foldl (fun a c => a * 10 + ((c.toNat : Int) - 48)) 0
    let v := if signed.1 then -v else v
    if -2 ^ 63 ≤ v ∧ v < 2 ^ 63 then some v else none

/-- The value an `int64` holds after an arithmetic result `x`: `x` wrapped
into the range from -2^63 to 2^63 - 1. -/
def wrap64 (x : Int) : Int := (x + 2 ^ 63) % 2 ^ 64 - 2 ^ 63

/-! ## pkg/scanner: ScanProjects -/

/-- The fallback of `getDirSize`: the walk adds the sizes of the entries that
are not directories and stops at the first error. -/
def walkSum : List (Except GoError FileInfo) → Int → Int × Option GoError
  | [], size => (size, none)
  | .error err :: _, size => (size, some err)
  | .ok info :: rest, size =>
    walkSum rest (if !info.IsDir then wrap64 (size + info.Size) else size)

/-- The function `getDirSize`. -/
def getDirSize {W : Type} (env : Env W) (w : W) (path : String) : Int × Option GoError :=
  let fallback := walkSum (env.Walk w path) 0
  match env.DiskUsage w path with
  | .ok output =>
    match Fields output with
    | part :: _ =>
      match ParseInt part with
      | some kbSize => (wrap64 (kbSize * 1024), none)
      | none => fallback
    | [] => fallback
  | .error _ => fallback

/-- The body of the loop of `Scanner.ScanProjects` for one entry: `some none`
when the entry is skipped, `some (some p)` when the project `p` is appended,
and `none` when the body panics.  The source drops the error of
`entry.Info()` and calls `info.ModTime()` on its result, which is nil after
an error. -/
def scanEntry {W : Type} (env : Env W) (w : W) (s : Scanner) (entry : DirEntry) :
    Option (Option UVProject) :=
  if !entry.IsDir then some none
  else
    let projectPath := env.Join s.ParentDir entry.Name
    let pythonVersionPath := env.Join projectPath ".python-version"
    let hasPythonVersion := errOf (env.Stat w pythonVersionPath)
    let venvPath := env.Join projectPath ".venv"
    let hasVenv := errOf (env.Stat w venvPath)
    let uvLockPath := env.Join projectPath "uv.lock"
    let hasUVLock := errOf (env.Stat w uvLockPath)
    let pyprojectPath := env.Join projectPath "pyproject.toml"
    let hasPyproject := errOf (env.Stat w pyprojectPath)
    if !IsNotExist hasPythonVersion || !IsNotExist hasPyproject ||
        (!IsNotExist hasVenv && !IsNotExist hasUVLock) then
      let info := env.EntryInfo w s.ParentDir entry
      let pythonVersion :=
        if !IsNotExist hasPythonVersion then
          match env.ReadFile w pythonVersionPath with
          | .ok versionBytes => TrimSpace versionBytes
          | .error _ => "unknown"
        else "unknown"
      let size := (getDirSize env w projectPath).1
      match info with
      | .error _ => none
      | .ok info =>
        some (some
          { Name := entry.Name
            Path := projectPath
            PythonVersion := pythonVersion
            Size := size
            LastModified := info.ModTime
            HasVenv := !IsNotExist hasVenv
            HasLock := !IsNotExist hasUVLock })
    else some none

/-- The loop of `Scanner.ScanProjects` over the entries that are left, with
the projects appended so far; `none` when the body panics. -/
def scanLoop {W : Type} (env : Env W) (w : W) (s : Scanner) :
    List DirEntry → List UVProject → Option (List UVProject)
  | [], projects => some projects
  | entry :: rest, projects =>
    match scanEntry env w s entry with
    | none => none
    | some none => scanLoop env w s rest projects
    | some (some project) => scanLoop env w s rest (projects ++ [project])

/-- The method `Scanner.ScanProjects`: the projects or the error it returns,
and `none` when it panics. -/
def ScanProjects {W : Type} (env : Env W) (w : W) (s : Scanner) :
    Option (Except GoError (List UVProject)) :=
  if IsNotExist (errOf (env.Stat w s.ParentDir)) then
    some (.error
      { text := "parent directory does not exist: " ++ s.ParentDir, notExist := false })
  else
    match env.ReadDir w s.ParentDir with
    | .error err => some (.error err)
    | .ok entries =>
      match scanLoop env w s entries [] with
      | none => none
      | some projects => some (.ok projects)

/-- The function `RunUVCommand`. -/
def RunUVCommand {W : Type} (env : Env W) (w : W) (projectPath : String)
    (args : List String) : W × String × Option GoError :=
  env.CombinedOutput w projectPath "uv" args

/-! ## pkg/ui: the update functions -/

/-- The method `Model.updateMainMenu`. -/
def updateMainMenu (m : Model) (msg : Msg) : Model × Cmd :=
  match msg with
  | Msg.KeyMsg k =>
    if Matches k m.keyMap.Up then
      let m := if m.selectedMenu > 0 then { m with selectedMenu := m.selectedMenu - 1 } else m
      (m, Cmd.nil)
    else if Matches k m.keyMap.Down then
      let m := if m.selectedMenu < (m.menuItems.length : Int) - 1 then
        { m with selectedMenu := m.selectedMenu + 1 } else m
      (m, Cmd.nil)
    else if Matches k m.keyMap.Select then
      if m.selectedMenu = 0 then
        if m.projects.length = 0 then
          let m := { m with loading := true, loadingMsg := scanningMsg }
          (m, Cmd.scanProjects m.scanner)
        else
          ({ m with state := StateProjectList }, Cmd.nil)
      else if m.selectedMenu = 1 then
        ({ m with state := StateNewProject, textInput := (m.textInput.SetValue "").Focus }, Cmd.nil)
      else if m.selectedMenu = 2 then
        (m, Cmd.Quit)
      else
        (m, Cmd.nil)
    else if Matches k (NewBinding ["r"]) then
      let m := { m with loading := true, loadingMsg := scanningMsg }
      (m, Cmd.scanProjects m.scanner)
    else
      (m, Cmd.nil)
  | _ => (m, Cmd.nil)

/-- The method `Model.useDefaultDirectory`. -/
def useDefaultDirectory {W : Type} (env : Env W) (w : W) (m : Model) : Model × Cmd × W :=
  match env.UserHomeDir w with
  | .error err =>
    ({ m with error := "Could not determine home directory: " ++ err.Error }, Cmd.nil, w)
  | .ok homeDir =>
    let defaultDir := env.Join homeDir "projects"
    let made : W × Option GoError :=
      if IsNotExist (errOf (env.Stat w defaultDir)) then env.MkdirAll w defaultDir else (w, none)
    match made with
    | (w1, some err) =>
      ({ m with error := "Could not create default directory: " ++ err.Error }, Cmd.nil, w1)
    | (w1, none) =>
      let m := { m with config := { m.config with ParentDirectory := defaultDir } }
      match m.config.Save env w1 with
      | (w2, some err) =>
        ({ m with error := "Could not save configuration: " ++ err.Error }, Cmd.nil, w2)
      | (w2, none) =>
        let m := { m with
          scanner := NewScanner m.config.ParentDirectory
          state := StateMainMenu
          loading := true
          loadingMsg := scanningMsg }
        (m, Cmd.scanProjects m.scanner, w2)

/-- The tail of `Model.updateFirstRun`, from the check that the path is a
directory: the writability test, the save of the configuration and the
launch of the scan. -/
def firstRunAccept {W : Type} (env : Env W) (w : W) (m : Model) (inputPath : String)
    (fileInfo : FileInfo) : Model × Cmd × W :=
  if !fileInfo.IsDir then
    useDefaultDirectory env w
      { m with error := "The specified path is not a directory.\nUsing default directory instead." }
  else
    let testFile := env.Join inputPath ".tuv_write_test"
    match env.WriteFile w testFile "test" with
    | (w1, some err) =>
      useDefaultDirectory env w1
        { m with error := "Directory is not writable: " ++ err.Error ++
            "\nUsing default directory instead." }
    | (w1, none) =>
      let w2 := env.Remove w1 testFile
      let m := { m with config := { m.config with ParentDirectory := inputPath } }
      match m.config.Save env w2 with
      | (w3, some err) =>
        useDefaultDirectory env w3
          { m with error := "Could not save configuration: " ++ err.Error ++
              "\nUsing default directory instead." }
      | (w3, none) =>
        let m := { m with
          scanner := NewScanner m.config.ParentDirectory
          state := StateMainMenu
          loading := true
          loadingMsg := scanningMsg }
        (m, Cmd.scanProjects m.scanner, w3)

/-- The middle of `Model.updateFirstRun`: the path is looked up, created when
it does not exist and looked up again. -/
def firstRunResolve {W : Type} (env : Env W) (w : W) (m : Model) (inputPath : String) :
    Model × Cmd × W :=
  match env.Stat w inputPath with
  | .ok fileInfo => firstRunAccept env w m inputPath fileInfo
  | .error err =>
    if IsNotExist (some err) then
      match env.MkdirAll w inputPath with
      | (w1, some err) =>
        useDefaultDirectory env w1
          { m with error := "Could not create directory: " ++ err.Error ++
              "\nUsing default directory instead." }
      | (w1, none) =>
        match env.Stat w1 inputPath with
        | .error err =>
          useDefaultDirectory env w1
            { m with error := "Failed to verify directory creation: " ++ err.Error ++
                "\nUsing default directory instead." }
        | .ok fileInfo => firstRunAccept env w1 m inputPath fileInfo
    else
      useDefaultDirectory env w
        { m with error := "Error accessing directory: " ++ err.Error ++
            "\nUsing default directory instead." }

/-- The method `Model.updateFirstRun`. -/
def updateFirstRun {W : Type} (env : Env W) (w : W) (m : Model) (msg : Msg) : Model × Cmd × W :=
  let upd := env.textInputUpdate m.textInput msg
  let m := { m with textInput := upd.1 }
  let cmd := upd.2
  match msg with
  | Msg.KeyMsg k =>
    if Matches k m.keyMap.Select then
      if m.textInput.Value ≠ "" then
        let inputPath := m.textInput.Value
        if HasPrefix inputPath "~" then
          match env.UserHomeDir w with
          | .error err =>
            useDefaultDirectory env w
              { m with error := "Could not determine home directory: " ++ err.Error ++
                  "\nUsing default directory instead." }
          | .ok homeDir => firstRunResolve env w m (env.Join homeDir (dropFirst inputPath))
        else
          firstRunResolve env w m inputPath
      else
        (m, cmd, w)
    else
      (m, cmd, w)
  | _ => (m, cmd, w)

/-- The method `Model.updateProjectList`. -/
def updateProjectList (m : Model) (msg : Msg) : Model × Cmd :=
  match msg with
  | Msg.KeyMsg k =>
    if Matches k m.keyMap.Up then
      let m := if m.selectedProject > 0 then
        { m with selectedProject := m.selectedProject - 1 } else m
      (m, Cmd.nil)
    else if Matches k m.keyMap.Down then
      let m := if m.selectedProject < (m.projects.length : Int) - 1 then
        { m with selectedProject := m.selectedProject + 1 } else m
      (m, Cmd.nil)
    else if Matches k m.keyMap.Select then
      let m := if m.projects.length > 0 then { m with state := StateProjectDetail } else m
      (m, Cmd.nil)
    else if Matches k m.keyMap.Back then
      ({ m with state := StateMainMenu }, Cmd.nil)
    else if Matches k m.keyMap.Scan then
      let m := { m with loading := true, loadingMsg := scanningMsg }
      (m, Cmd.scanProjects m.scanner)
    else
      (m, Cmd.nil)
  | _ => (m, Cmd.nil)

/-- The method `Model.updateProjectDetail`. -/
def updateProjectDetail (m : Model) (msg : Msg) : Model × Cmd :=
  match msg with
  | Msg.KeyMsg k =>
    if Matches k m.keyMap.Back then
      ({ m with state := StateProjectList }, Cmd.nil)
    else
      (m, Cmd.nil)
  | _ => (m, Cmd.nil)

/-- The method `Model.updateNewProject`.  It reads the world (one `os.Stat`)
and does not change it; the work of creating the project is in the returned
command. -/
def updateNewProject {W : Type} (env : Env W) (w : W) (m : Model) (msg : Msg) : Model × Cmd :=
  let upd := env.textInputUpdate m.textInput msg
  let m := { m with textInput := upd.1 }
  let cmd := upd.2
  match msg with
  | Msg.KeyMsg k =>
    if Matches k m.keyMap.Back then
      ({ m with state := StateMainMenu }, Cmd.nil)
    else if Matches k m.keyMap.Select then
      if m.textInput.Value ≠ "" then
        let projectName := m.textInput.Value
        let projectPath := env.Join m.config.ParentDirectory projectName
        if !IsNotExist (errOf (env.Stat w projectPath)) then
          ({ m with error := "Project " ++ projectName ++ " already exists" }, Cmd.nil)
        else
          let m := { m with
            loading := true
            loadingMsg := "Creating new project: " ++ projectName }
          (m, Cmd.createProject m.scanner projectPath projectName)
      else
        (m, cmd)
    else
      (m, cmd)
  | _ => (m, cmd)

/-- The method `Model.Update`: the fold of one message into the model.  The
result is the new model, the command to run, and the world after the
synchronous file operations of the first-run setup. -/
def Update {W : Type} (env : Env W) (w : W) (m : Model) (msg : Msg) : Model × Cmd × W :=
  match msg with
  | Msg.KeyMsg k =>
    if Matches k m.keyMap.Quit then
      (m, Cmd.Quit, w)
    else
      match m.state with
      | StateMainMenu => ((updateMainMenu m msg).1, (updateMainMenu m msg).2, w)
      | StateFirstRun => updateFirstRun env w m msg
      | StateProjectList => ((updateProjectList m msg).1, (updateProjectList m msg).2, w)
      | StateProjectDetail => ((updateProjectDetail m msg).1, (updateProjectDetail m msg).2, w)
      | StateNewProject => ((updateNewProject env w m msg).1, (updateNewProject env w m msg).2, w)
      | StateLoading => (m, Cmd.nil, w)
  | Msg.WindowSizeMsg width height =>
    ({ m with width := width, height := height }, Batch [], w)
  | Msg.TickMsg t =>
    let upd := env.spinnerUpdate m.spinner t
    ({ m with spinner := upd.1 }, Batch [upd.2], w)
  | Msg.projectsFoundMsg projects =>
    let m := { m with
      projects := projects
      loading := false
      statusMsg := "Found " ++ toString projects.length ++ " uv projects" }
    let m := if m.projects.length = 0 ∧ m.state ≠ StateMainMenu then
      { m with state := StateMainMenu } else m
    (m, Batch [], w)
  | Msg.projectCreatedMsg projects projectName =>
    let m := { m with
      projects := projects
      loading := false
      state := StateMainMenu
      statusMsg := "Project \x27" ++ projectName ++ "\x27 created successfully!"
      textInput := m.textInput.SetValue "" }
    (m, Batch [], w)
  | Msg.statusMsg msg =>
    ({ m with statusMsg := msg, loading := false }, Batch [], w)
  | Msg.errMsg err =>
    ({ m with error := err.Error, loading := false }, Batch [], w)
  | Msg.other _ => (m, Batch [], w)

/-- The host loop, as far as the model is concerned: the messages of a list
are folded into the model one after the other, in delivery order. -/
def run {W : Type} (env : Env W) : W → Model → List Msg → Model × W
  | w, m, [] => (m, w)
  | w, m, msg :: rest =>
    run env (Update env w m msg).2.2 (Update env w m msg).1 rest

/-- The key event of the key named `s`. -/
def keyPress (s : String) : Msg := Msg.KeyMsg { str := s }

/-! ## pkg/ui: commands, construction and the detail view -/

/-- The method `Model.scanProjects`, the body of the scan command: the message
it delivers, and `none` when the scan panics. -/
def scanProjects {W : Type} (env : Env W) (w : W) (s : Scanner) : Option Msg :=
  match ScanProjects env w s with
  | none => none
  | some (.error err) => some (Msg.errMsg err)
  | some (.ok projects) => some (Msg.projectsFoundMsg projects)

/-- The version that the command of `updateNewProject` writes to the marker
file, from the output and the error of the version query: the default "3.12",
replaced by `parts[1]` when the query succeeds and the trimmed output, split
at the single space, has at least two parts. -/
def pythonVersionOf (output : String) (err : Option GoError) : String :=
  match err with
  | none =>
    let parts := Split (TrimSpace output) (Char.ofNat 32)
    if h : 2 ≤ parts.length then parts[1] else "3.12"
  | some _ => "3.12"

/-- The content of the `pyproject.toml` of a new project. -/
def pyprojectContent (projectName : String) : String :=
  "[project]\nname = \"" ++ projectName ++ "\"\nversion = \"0.1.0\"\n" ++
    "description = \"A new Python project\"\nreadme = \"README.md\"\n" ++
    "requires-python = \">=3.8\"\nlicense = \x7btext = \"MIT\"\x7d\n\n" ++
    "[build-system]\nrequires = [\"hatchling\"]\nbuild-backend = \"hatchling.build\"\n"

/-- The content of the `README.md` of a new project. -/
def readmeContent (projectName : String) : String :=
  "# " ++ projectName ++ "\n\nA new Python project created with TUV.\n"

/-- The content of the `hello.py` of a new project. -/
def helloContent : String :=
  "def main():\n    print(\"Hello, world!\")\n\nif __name__ == \"__main__\":\n    main()\n"

/-- The end of the command of `updateNewProject`, from the write of the
marker file `.python-version` with the version found: the message delivered
and the world left, and `none` when the final scan panics. -/
def createProjectFinish {W : Type} (env : Env W) (w : W) (s : Scanner)
    (projectPath projectName pythonVersion : String) : Option (Msg × W) :=
  match env.WriteFile w (env.Join projectPath ".python-version") pythonVersion with
  | (w1, some err) => some (Msg.errMsg err, w1)
  | (w1, none) =>
    match env.WriteFile w1 (env.Join projectPath "README.md") (readmeContent projectName) with
    | (w2, some err) => some (Msg.errMsg err, w2)
    | (w2, none) =>
      match env.WriteFile w2 (env.Join projectPath "hello.py") helloContent with
      | (w3, some err) => some (Msg.errMsg err, w3)
      | (w3, none) =>
        match ScanProjects env w3 s with
        | none => none
        | some (.error err) => some (Msg.errMsg err, w3)
        | some (.ok projects) => some (Msg.projectCreatedMsg projects projectName, w3)

/-- The command that `updateNewProject` returns, run in the world `w`: the
message it delivers and the world it leaves, and `none` when it panics. -/
def createProject {W : Type} (env : Env W) (w : W) (s : Scanner)
    (projectPath projectName : String) : Option (Msg × W) :=
  match env.MkdirAll w projectPath with
  | (w1, some err) => some (Msg.errMsg err, w1)
  | (w1, none) =>
    match RunUVCommand env w1 projectPath ["venv"] with
    | (w2, _, some err) => some (Msg.errMsg err, w2)
    | (w2, _, none) =>
      match env.WriteFile w2 (env.Join projectPath "pyproject.toml")
          (pyprojectContent projectName) with
      | (w3, some err) => some (Msg.errMsg err, w3)
      | (w3, none) =>
        let query := RunUVCommand env w3 projectPath ["venv", "python", "--version"]
        createProjectFinish env query.1 s projectPath projectName
          (pythonVersionOf query.2.1 query.2.2)

/-- A command run by the host in the world `w`: the message it delivers and
the world it leaves.  Only the two commands of the repository are run; the
result is `none` for every other command, and when the command panics. -/
def runCmd {W : Type} (env : Env W) (w : W) : Cmd → Option (Msg × W)
  | Cmd.scanProjects s =>
    match scanProjects env w s with
    | some msg => some (msg, w)
    | none => none
  | Cmd.createProject s projectPath projectName =>
    createProject env w s projectPath projectName
  | _ => none

/-- The method `Config.IsFirstRun`. -/
def Config.IsFirstRun {W : Type} (env : Env W) (w : W) (c : Config) : Bool :=
  IsNotExist (errOf (env.Stat w c.ConfigFileLocation))

/-- The function `NewModel`.  The spinner is the first one made, with id 1. -/
def NewModel {W : Type} (env : Env W) (w : W) (cfg : Config) : Model :=
  let ti : TextInput := { value := "", pos := 0, focus := false, CharLimit := 0 }
  let ti := ti.Focus
  let ti := { ti with CharLimit := 256 }
  let ti :=
    if cfg.ParentDirectory ≠ "" then ti.SetValue cfg.ParentDirectory
    else
      match env.UserHomeDir w with
      | .ok homeDir => ti.SetValue (env.Join homeDir "projects")
      | .error _ => ti
  let initialState := if cfg.IsFirstRun env w then StateFirstRun else StateMainMenu
  let m : Model :=
    { config := cfg
      scanner := NewScanner cfg.ParentDirectory
      keyMap := DefaultKeyMap
      state := initialState
      width := 0
      height := 0
      menuItems := ["List projects", "New project", "Quit"]
      selectedMenu := 0
      projects := []
      selectedProject := 0
      textInput := ti
      spinner := { frame := 0, id := 1, tag := 0 }
      loading := false
      loadingMsg := ""
      statusMsg := ""
      error := "" }
  if initialState ≠ StateFirstRun then
    { m with loading := true, loadingMsg := scanningMsg }
  else m

/-- The method `Model.Init`; the tick of the spinner is the component
command 0. -/
def Init (m : Model) : Cmd :=
  Batch (Cmd.component 0 :: (if m.loading then [Cmd.scanProjects m.scanner] else []))

/-- The lookup `m.projects[m.selectedProject]` that opens `viewProjectDetail`;
`none` when the index is out of range, where Go panics. -/
def detailProject (m : Model) : Option UVProject :=
  if 0 ≤ m.selectedProject then m.projects[m.selectedProject.toNat]? else none

/-! ## pkg/scanner: FormatSize -/

/-- The loop of `FormatSize`,
`for n := size / unit; n >= unit; n /= unit { div *= unit; exp++ }`,
from the loop head with the current `n`, `div` and `exp`; the result is the
final `div` and `exp`.  Division is the truncating division of Go and the
product is an `int64` product. -/
def formatSizeLoop (n div : Int) (exp : Nat) : Int × Nat :=
  if 1024 ≤ n then formatSizeLoop (n.tdiv 1024) (wrap64 (div * 1024)) (exp + 1)
  else (div, exp)
termination_by n.toNat
decreasing_by
  have h0 : (0 : Int) ≤ n := by omega
  rw [Int.tdiv_eq_ediv h0 (by decide)]
  omega

/-- The function `FormatSize`.  The rendering of the quotient by `%.1f` is
floating point and is the parameter `fmt`, given the size and the divisor;
the result is `none` when the index into "KMGTPE" is out of range, where Go
panics. -/
def FormatSize (fmt : Int → Int → String) (size : Int) : Option String :=
  if size < 1024 then some (toString size ++ " B")
  else
    let r := formatSizeLoop (size.tdiv 1024) 1024 0
    match "KMGTPE".toList[r.2]? with
    | some c => some (fmt size r.1 ++ " " ++ String.singleton c ++ "B")
    | none => none

/-! ## A small concrete environment

An in-memory world used to run the model on concrete inputs.  Paths are
slash-separated strings, `filepath.Join` joins and cleans them, a listing is
sorted by name, and the text input appends a one-character key to its
value. -/

/-- The world of the concrete examples: the home directory (if it can be
determined), the directories and the regular files that exist, and the
`parent_directory` last written to the configuration file, the contents of the
files, the output of the version query of uv, and the directories that can be
listed but not searched (every lookup below them is denied). -/
structure SimWorld where
  home : Option String
  dirs : List String
  files : List String
  saved : Option String
  contents : List (String × String) := []
  uvVersion : String := "Python 3.12.0\n"
  denied : List String := []
deriving DecidableEq, Repr

/-- The error of a lookup of a path that does not exist. -/
def enoent (path : String) : GoError :=
  { text := "stat " ++ path ++ ": no such file or directory", notExist := true }

/-- The name of `path` as an immediate child of the directory `root`, if it
is one. -/
def simChildName (root path : String) : Option String :=
  let r := root.toList ++ [Char.ofNat 47]
  let p := path.toList
  if r.isPrefixOf p ∧ p.drop r.length ≠ [] ∧ Char.ofNat 47 ∉ p.drop r.length then
    some (String.mk (p.drop r.length))
  else none

/-- Whether `path` is `root` or lies below it. -/
def simUnder (root path : String) : Bool :=
  path = root || (root.toList ++ [Char.ofNat 47]).isPrefixOf path.toList

/-- The content of a file of the world; empty when none was recorded. -/
def simContent (w : SimWorld) (path : String) : String :=
  (w.contents.lookup path).getD ""

/-- The error of a lookup below a directory that cannot be searched. -/
def eacces (path : String) : GoError :=
  { text := "stat " ++ path ++ ": permission denied", notExist := false }

/-- Whether `path` lies below a directory that cannot be searched. -/
def simBlocked (w : SimWorld) (path : String) : Bool :=
  w.denied.any (fun d => (d.toList ++ [Char.ofNat 47]).isPrefixOf path.toList)

/-- The elements of a path after cleaning: empty elements and "." are
dropped, and ".." removes the element before it. -/
def simCleanParts (rooted : Bool) : List (List Char) → List (List Char) → List (List Char)
  | [], acc => acc.reverse
  | c :: rest, acc =>
    if c = [] ∨ c = [Char.ofNat 46] then simCleanParts rooted rest acc
    else if c = [Char.ofNat 46, Char.ofNat 46] then
      match acc with
      | top :: below =>
        if top = [Char.ofNat 46, Char.ofNat 46] then simCleanParts rooted rest (c :: acc)
        else simCleanParts rooted rest below
      | [] => if rooted then simCleanParts rooted rest [] else simCleanParts rooted rest [c]
    else simCleanParts rooted rest (c :: acc)

/-- The function `filepath.Clean` on slash-separated paths. -/
def simClean (path : String) : String :=
  let cs := path.toList
  let rooted : Bool := cs.head? = some (Char.ofNat 47)
  let body := [Char.ofNat 47].intercalate (simCleanParts rooted (splitChars (Char.ofNat 47) cs) [])
  if rooted then String.mk (Char.ofNat 47 :: body)
  else if body = [] then "." else String.mk body

/-- The order of file names in a listing: byte by byte. -/
def simNameLe : List Char → List Char → Bool
  | [], _ => true
  | _ :: _, [] => false
  | a :: as, b :: bs =>
    if a.toNat < b.toNat then true
    else if b.toNat < a.toNat then false
    else simNameLe as bs

/-- An entry put at its place in a listing sorted by name. -/
def simInsert (e : DirEntry) : List DirEntry → List DirEntry
  | [] => [e]
  | x :: xs =>
    if simNameLe e.Name.toList x.Name.toList then e :: x :: xs else x :: simInsert e xs

/-- The concrete environment over `SimWorld`. -/
def simEnv : Env SimWorld where
  UserHomeDir w :=
    match w.home with
    | some h => .ok h
    | none => .error { text := "$HOME is not defined", notExist := false }
  Stat w path :=
    if simBlocked w path then .error (eacces path)
    else if path ∈ w.dirs then .ok { IsDir := true, ModTime := 0 }
    else if path ∈ w.files then .ok { IsDir := false, ModTime := 0 }
    else .error (enoent path)
  MkdirAll w path :=
    if path ∈ w.files then
      (w, some { text := "mkdir " ++ path ++ ": not a directory", notExist := false })
    else if path ∈ w.dirs then (w, none)
    else ({ w with dirs := path :: w.dirs }, none)
  WriteFile w path data :=
    if path ∈ w.dirs then
      (w, some { text := "open " ++ path ++ ": is a directory", notExist := false })
    else if path ∈ w.files then ({ w with contents := (path, data) :: w.contents }, none)
    else ({ w with files := path :: w.files, contents := (path, data) :: w.contents }, none)
  Remove w path := { w with files := w.files.erase path }
  Join a b :=
    if a = "" then (if b = "" then "" else simClean b)
    else if b = "" then simClean a
    else simClean (a ++ "/" ++ b)
  WriteConfig w file value :=
    ({ w with
        files := if file ∈ w.files then w.files else file :: w.files
        saved := some value }, none)
  textInputUpdate t msg :=
    match msg with
    | Msg.KeyMsg k =>
      if t.focus ∧ k.str.length = 1 then
        ({ t with value := t.value ++ k.str, pos := t.pos + 1 }, Cmd.nil)
      else (t, Cmd.nil)
    | _ => (t, Cmd.nil)
  spinnerUpdate s _ := ({ s with frame := s.frame + 1, tag := s.tag + 1 }, Cmd.component 1)
  ReadDir w path :=
    if simBlocked w path then .error (eacces path)
    else if path ∈ w.dirs then
      .ok (((w.dirs.filterMap (simChildName path)).map
              (fun n => ({ Name := n, IsDir := true } : DirEntry)) ++
            (w.files.filterMap (simChildName path)).map
              (fun n => ({ Name := n, IsDir := false } : DirEntry))).foldr simInsert [])
    else .error (enoent path)
  EntryInfo w dir entry :=
    if simBlocked w (dir ++ "/" ++ entry.Name) then .error (eacces (dir ++ "/" ++ entry.Name))
    else .ok { IsDir := entry.IsDir, ModTime := 0 }
  ReadFile w path :=
    if simBlocked w path then .error (eacces path)
    else if path ∈ w.files then .ok (simContent w path) else .error (enoent path)
  DiskUsage w path :=
    if path ∈ w.dirs then .ok ("4\t" ++ path ++ "\n")
    else .error { text := "exit status 1", notExist := false }
  Walk w path :=
    (w.dirs.filter (simUnder path)).map (fun _ => .ok { IsDir := true, ModTime := 0 }) ++
      (w.files.filter (simUnder path)).map
        (fun f => .ok { IsDir := false, ModTime := 0, Size := (simContent w f).length })
  CombinedOutput w dir name args :=
    if name = "uv" ∧ args = ["venv"] then
      ({ w with dirs := w.dirs ++ [dir ++ "/.venv"] },
        "Creating virtual environment at: .venv\n", none)
    else if name = "uv" ∧ args = ["venv", "python", "--version"] then
      (w, w.uvVersion, none)
    else (w, "", some { text := "exit status 2", notExist := false })

/-- A world with a home directory and a project root holding one project. -/
def simWorld : SimWorld :=
  { home := some "/home/u"
    dirs := ["/home/u", "/home/u/projects", "/home/u/projects/demo"]
    files := ["/home/u/.config/tuv/config.yaml", "/home/u/projects/demo/pyproject.toml"]
    saved := some "/home/u/projects" }

/-- A project of the concrete examples. -/
def simProject (name : String) : UVProject :=
  { Name := name
    Path := "/home/u/projects/" ++ name
    PythonVersion := "3.12"
    Size := 4096
    LastModified := 0
    HasVenv := true
    HasLock := false }

/-- A model in the main menu, as `NewModel` builds it for an existing
configuration, after its first scan found no project. -/
def simModel : Model :=
  { config :=
      { ParentDirectory := "/home/u/projects"
        ConfigFileLocation := "/home/u/.config/tuv/config.yaml" }
    scanner := NewScanner "/home/u/projects"
    keyMap := DefaultKeyMap
    state := StateMainMenu
    width := 80
    height := 24
    menuItems := ["List projects", "New project", "Quit"]
    selectedMenu := 0
    projects := []
    selectedProject := 0
    textInput := { value := "", pos := 0, focus := true, CharLimit := 256 }
    spinner := { frame := 0, id := 1, tag := 0 }
    loading := false
    loadingMsg := ""
    statusMsg := ""
    error := "" }

/-- A model in the project list with three projects, the last one selected. -/
def simListModel : Model :=
  { simModel with
    state := StateProjectList
    projects := [simProject "alpha", simProject "beta", simProject "gamma"]
    selectedProject := 2
    statusMsg := "Found 3 uv projects" }

/-- The project list of `simListModel` after a failed rescan: an error and a
status are on display. -/
def simErrModel : Model :=
  { simListModel with error := "parent directory does not exist: /home/u/projects" }

/-- The main menu of `simModel` while a scan is pending. -/
def simLoadingModel : Model :=
  { simModel with loading := true, loadingMsg := scanningMsg }

/-- The new-project input while a creation is pending, with the name typed. -/
def simCreatingModel : Model :=
  { simModel with
    state := StateNewProject
    textInput := { value := "fresh", pos := 5, focus := true, CharLimit := 256 }
    loading := true
    loadingMsg := "Creating new project: fresh" }

/-- A project root with three directories and a file: `proj-a` holds
`.python-version`, `proj-b` holds only `uv.lock`, `data-dir` holds nothing. -/
def scanWorld : SimWorld :=
  { home := some "/home/u"
    dirs := ["/srv/py", "/srv/py/proj-a", "/srv/py/proj-b", "/srv/py/data-dir"]
    files := ["/srv/py/proj-a/.python-version", "/srv/py/proj-b/uv.lock", "/srv/py/notes.txt"]
    saved := none
    contents := [("/srv/py/proj-a/.python-version", "3.11\n")] }

/-- A project root with an empty directory `locked` that cannot be searched,
so that every lookup below it is denied, and the project `proj-a`. -/
def deniedWorld : SimWorld :=
  { home := some "/home/u"
    dirs := ["/srv/py", "/srv/py/locked", "/srv/py/proj-a"]
    files := ["/srv/py/proj-a/.python-version"]
    saved := none
    contents := [("/srv/py/proj-a/.python-version", "3.11\n")]
    denied := ["/srv/py/locked"] }

/-- The world `scanWorld` with a root that can be listed but not searched. -/
def unsearchableWorld : SimWorld :=
  { scanWorld with denied := ["/srv/py"] }

/-- The world `simWorld` with a version query that prints two spaces after
the first word. -/
def simWorldTwoSpaces : SimWorld :=
  { simWorld with uvVersion := "Python  3.12.0\n" }

/-- A world before the first run: no configuration file yet, a directory
`/data` and a regular file `/home/u/notes.txt`. -/
def firstRunWorld : SimWorld :=
  { home := some "/home/u"
    dirs := ["/home/u", "/data"]
    files := ["/home/u/notes.txt"]
    saved := none }

/-- The configuration that `LoadConfig` returns before the first run. -/
def firstRunConfig : Config :=
  { ParentDirectory := "/home/u/projects"
    ConfigFileLocation := "/home/u/.config/tuv/config.yaml" }

/-- The first-run setup with `path` typed into the input. -/
def firstRunModel (path : String) : Model :=
  { NewModel simEnv firstRunWorld firstRunConfig with
    textInput := { value := path, pos := path.length, focus := true, CharLimit := 256 } }

/-- A world after the first run: the configuration file exists and the root
holds the projects `alpha`, `beta` and `gamma`. -/
def threeProjectsWorld : SimWorld :=
  { home := some "/home/u"
    dirs := ["/home/u", "/home/u/projects", "/home/u/projects/alpha", "/home/u/projects/beta",
      "/home/u/projects/gamma"]
    files := ["/home/u/.config/tuv/config.yaml", "/home/u/projects/alpha/pyproject.toml",
      "/home/u/projects/beta/pyproject.toml", "/home/u/projects/gamma/pyproject.toml"]
    saved := some "/home/u/projects" }

/-- The world `threeProjectsWorld` after `beta` and `gamma` were removed. -/
def oneProjectWorld : SimWorld :=
  { home := some "/home/u"
    dirs := ["/home/u", "/home/u/projects", "/home/u/projects/alpha"]
    files := ["/home/u/.config/tuv/config.yaml", "/home/u/projects/alpha/pyproject.toml"]
    saved := some "/home/u/projects" }

/-- The session that `NewModel` builds in `threeProjectsWorld`. -/
def startSession : Model := NewModel simEnv threeProjectsWorld firstRunConfig

/-- A project as the scan reports it in the worlds of the examples: found by
its `pyproject.toml`, with no version file, no environment and no lock file. -/
def scannedProject (name : String) : UVProject :=
  { Name := name
    Path := "/home/u/projects/" ++ name
    PythonVersion := "unknown"
    Size := 4096
    LastModified := 0
    HasVenv := false
    HasLock := false }

/-- The message of the scan that `Init` launches, run in `threeProjectsWorld`. -/
def firstScan : Msg :=
  Msg.projectsFoundMsg [scannedProject "alpha", scannedProject "beta", scannedProject "gamma"]

/-- The session after the first scan has completed and the user has opened
the project list and moved down twice. -/
def listSession : Model :=
  (run simEnv threeProjectsWorld startSession
    [firstScan, keyPress "enter", keyPress "down", keyPress "down"]).1

/-- The message of the rescan launched from `listSession`, run after two
projects were removed. -/
def secondScan : Msg := Msg.projectsFoundMsg [scannedProject "alpha"]

/-- The session after the rescan key, the completion of the rescan, and
select. -/
def detailSession : Model :=
  (run simEnv oneProjectWorld listSession [keyPress "s", secondScan, keyPress "enter"]).1

/-! ## Predicates used by the statements -/

/-- An up key of the default key map. -/
def isUp (k : KeyMsg) : Prop := k.str = "up" ∨ k.str = "k"

/-- A down key of the default key map. -/
def isDown (k : KeyMsg) : Prop := k.str = "down" ∨ k.str = "j"

/-- A navigation event: an up or a down key. -/
def isNavigation : Msg → Prop
  | Msg.KeyMsg k => isUp k ∨ isDown k
  | _ => False

/-- The menu index is a valid index of the menu items. -/
def menuInRange (m : Model) : Prop :=
  0 ≤ m.selectedMenu ∧ m.selectedMenu < (m.menuItems.length : Int)

/-- The project index is a valid index of the project list. -/
def projectInRange (m : Model) : Prop :=
  0 ≤ m.selectedProject ∧ m.selectedProject < (m.projects.length : Int)

instance (m : Model) : Decidable (menuInRange m) := by
  unfold menuInRange; infer_instance

instance (m : Model) : Decidable (projectInRange m) := by
  unfold projectInRange; infer_instance

/-- The test of the source for a path being there: `os.Stat` does not answer
that the path does not exist. -/
def pathPresent {W : Type} (env : Env W) (w : W) (path : String) : Bool :=
  !IsNotExist (errOf (env.Stat w path))

/-- A path is found: `os.Stat` succeeds. -/
def pathFound {W : Type} (env : Env W) (w : W) (path : String) : Bool :=
  match env.Stat w path with
  | .ok _ => true
  | .error _ => false

/-- The classification rule of the specification for a directory `dir`: it
contains `.python-version`, or `pyproject.toml`, or both `.venv` and
`uv.lock`, where a directory contains a name when the lookup of the name in
it succeeds. -/
def isProjectDir {W : Type} (env : Env W) (w : W) (dir : String) : Bool :=
  pathFound env w (env.Join dir ".python-version") ||
    pathFound env w (env.Join dir "pyproject.toml") ||
    (pathFound env w (env.Join dir ".venv") && pathFound env w (env.Join dir "uv.lock"))

/-- The rule with "is not reported missing" in place of "contains": the
lookup of `.python-version`, or of `pyproject.toml`, or of both `.venv` and
`uv.lock` in `dir` does not answer that the path does not exist. -/
def notReportedMissing {W : Type} (env : Env W) (w : W) (dir : String) : Bool :=
  pathPresent env w (env.Join dir ".python-version") ||
    pathPresent env w (env.Join dir "pyproject.toml") ||
    (pathPresent env w (env.Join dir ".venv") && pathPresent env w (env.Join dir "uv.lock"))

/-- The lookup of `path` is definite: it succeeds or answers that the path
does not exist. -/
def definiteLookup {W : Type} (env : Env W) (w : W) (path : String) : Bool :=
  pathFound env w path == pathPresent env w path

/-- The lookups of the four marker names in `dir` are definite. -/
def definiteLookups {W : Type} (env : Env W) (w : W) (dir : String) : Bool :=
  definiteLookup env w (env.Join dir ".python-version") &&
    definiteLookup env w (env.Join dir "pyproject.toml") &&
    definiteLookup env w (env.Join dir ".venv") &&
    definiteLookup env w (env.Join dir "uv.lock")

/-- The lines "Using default directory instead." that `updateFirstRun` adds to
the text of a failure. -/
def usingDefault : String := "\nUsing default directory instead."

/-- Steps 3 and 4 of the path validation of the specification, with the texts
of the source, on a path that was found: require a directory, and test that
it can be written by creating and removing `.tuv_write_test`.  The result is
the world after the steps and either the text of the failure or the path. -/
def validateDirectory {W : Type} (env : Env W) (w : W) (path : String) (info : FileInfo) :
    W × Except String String :=
  if !info.IsDir then (w, .error "The specified path is not a directory.")
  else
    match env.WriteFile w (env.Join path ".tuv_write_test") "test" with
    | (w1, some e) => (w1, .error ("Directory is not writable: " ++ e.Error))
    | (w1, none) => (env.Remove w1 (env.Join path ".tuv_write_test"), .ok path)

/-- Steps 2 to 4 of the path validation of the specification on the resolved
path: look the path up, create it when it does not exist and look it up
again, then validate the directory. -/
def validateResolved {W : Type} (env : Env W) (w : W) (path : String) :
    W × Except String String :=
  match env.Stat w path with
  | .ok info => validateDirectory env w path info
  | .error err =>
    if IsNotExist (some err) then
      match env.MkdirAll w path with
      | (w1, some e) => (w1, .error ("Could not create directory: " ++ e.Error))
      | (w1, none) =>
        match env.Stat w1 path with
        | .error e => (w1, .error ("Failed to verify directory creation: " ++ e.Error))
        | .ok info => validateDirectory env w1 path info
    else (w, .error ("Error accessing directory: " ++ err.Error))

/-- Steps 1 to 4 of the path validation of the specification on the submitted
path: a leading "~" is replaced by the home directory, then the resolved
path is validated. -/
def validatePath {W : Type} (env : Env W) (w : W) (inputPath : String) :
    W × Except String String :=
  if HasPrefix inputPath "~" then
    match env.UserHomeDir w with
    | .error err => (w, .error ("Could not determine home directory: " ++ err.Error))
    | .ok homeDir => validateResolved env w (env.Join homeDir (dropFirst inputPath))
  else validateResolved env w inputPath

/-- What the first-run setup does with the outcome of the validation: after a
failure it falls back to the default directory with the failure as error;
after a success it saves the path and launches the scan, and falls back when
the save fails. -/
def afterValidation {W : Type} (env : Env W) (m : Model) (v : W × Except String String) :
    Model × Cmd × W :=
  match v with
  | (w1, .error e) => useDefaultDirectory env w1 { m with error := e ++ usingDefault }
  | (w1, .ok r) =>
    match Config.Save env w1 { m.config with ParentDirectory := r } with
    | (w3, some err) =>
      useDefaultDirectory env w3
        { m with
          config := { m.config with ParentDirectory := r }
          error := "Could not save configuration: " ++ err.Error ++ usingDefault }
    | (w3, none) =>
      ({ m with
          config := { m.config with ParentDirectory := r }
          scanner := NewScanner r
          state := StateMainMenu
          loading := true
          loadingMsg := scanningMsg },
        Cmd.scanProjects (NewScanner r), w3)

/-- The messages whose case in `Update` clears the loading flag. -/
def clearsLoading : Msg → Bool
  | Msg.projectsFoundMsg _ => true
  | Msg.projectCreatedMsg _ _ => true
  | Msg.statusMsg _ => true
  | Msg.errMsg _ => true
  | _ => false

/-- A result of `Update` with the loading flag of its model set. -/
def withLoading {W : Type} (r : Model × Cmd × W) : Model × Cmd × W :=
  ({ r.1 with loading := true }, r.2)

/-! ## Lemmas about the components -/

theorem matches_default_quit (k : KeyMsg) :
    Matches k DefaultKeyMap.Quit = true ↔ (k.str = "ctrl+c" ∨ k.str = "q") := by
  simp [Matches, DefaultKeyMap, NewBinding]

theorem batch_empty : Batch [] = Cmd.nil := rfl

theorem setValue_empty_value (t : TextInput) : (t.SetValue "").Value = "" := by
  simp [TextInput.SetValue, TextInput.Value, sanitizeChars]

/-! ## The claims -/

/-- C4: a key event that matches the quit binding makes `Update` return the
quit command and the session as it was, in every state and whatever the
loading flag; in particular the input buffer of the text-entry states is not
touched.  With the default key map the quit keys are ctrl+c and q. -/
theorem quit_key_always_quits {W : Type} (env : Env W) (w : W) (m : Model) (k : KeyMsg)
    (hq : Matches k m.keyMap.Quit = true) :
    Update env w m (Msg.KeyMsg k) = (m, Cmd.Quit, w) ∧
      (Update env w m (Msg.KeyMsg k)).1.textInput = m.textInput := by
  simp [Update, hq]

theorem quit_key_always_quits_witness :
    Matches { str := "q" } { simModel with state := StateNewProject, loading := true }.keyMap.Quit
        = true ∧
      Update simEnv simWorld { simModel with state := StateNewProject, loading := true }
          (Msg.KeyMsg { str := "q" })
        = ({ simModel with state := StateNewProject, loading := true }, Cmd.Quit, simWorld) :=
  ⟨by decide,
    (quit_key_always_quits simEnv simWorld
      { simModel with state := StateNewProject, loading := true } { str := "q" } (by decide)).1⟩

/-- C6: a scan-completed message carrying the list `ps` replaces the projects
by `ps` (same order), clears the loading flag and sets the status to
"Found n uv projects" with n the length of `ps`; the state is kept when `ps`
is non-empty and is the main menu when `ps` is empty.  No command is
returned and the world is not touched. -/
theorem projectsFound_folds {W : Type} (env : Env W) (w : W) (m : Model) (ps : List UVProject) :
    (Update env w m (Msg.projectsFoundMsg ps)).1.projects = ps ∧
      (Update env w m (Msg.projectsFoundMsg ps)).1.loading = false ∧
      (Update env w m (Msg.projectsFoundMsg ps)).1.statusMsg
        = "Found " ++ toString ps.length ++ " uv projects" ∧
      (Update env w m (Msg.projectsFoundMsg ps)).1.state
        = (if ps = [] then StateMainMenu else m.state) ∧
      (Update env w m (Msg.projectsFoundMsg ps)).2 = (Cmd.nil, w) := by
  by_cases hps : ps = []
  · subst hps
    by_cases hs : m.state = StateMainMenu <;> simp [Update, Batch, hs]
  · simp [Update, Batch, hps]

/-- C7: a provisioning-completed message carrying the list `ps` and the name
`n` leads to the main menu from any state, with the projects replaced by
`ps`, the loading flag cleared, the status "Project 'n' created
successfully!" and an empty input buffer. -/
theorem projectCreated_folds {W : Type} (env : Env W) (w : W) (m : Model)
    (ps : List UVProject) (n : String) :
    (Update env w m (Msg.projectCreatedMsg ps n)).1.state = StateMainMenu ∧
      (Update env w m (Msg.projectCreatedMsg ps n)).1.projects = ps ∧
      (Update env w m (Msg.projectCreatedMsg ps n)).1.loading = false ∧
      (Update env w m (Msg.projectCreatedMsg ps n)).1.statusMsg
        = "Project \x27" ++ n ++ "\x27 created successfully!" ∧
      (Update env w m (Msg.projectCreatedMsg ps n)).1.textInput.Value = "" := by
  simp [Update, setValue_empty_value]

/-- C8: an error message clears the loading flag and stores the description
of the error in the error field; state, projects, both selection indices, the
input buffer and the status are as before, no command is returned, and the
result is the same for an error of another kind with the same description. -/
theorem errMsg_folds {W : Type} (env : Env W) (w : W) (m : Model) (e : GoError) :
    Update env w m (Msg.errMsg e)
        = ({ m with error := e.Error, loading := false }, Cmd.nil, w) ∧
      (Update env w m (Msg.errMsg e)).1.state = m.state ∧
      (Update env w m (Msg.errMsg e)).1.projects = m.projects ∧
      (Update env w m (Msg.errMsg e)).1.selectedMenu = m.selectedMenu ∧
      (Update env w m (Msg.errMsg e)).1.selectedProject = m.selectedProject ∧
      (Update env w m (Msg.errMsg e)).1.textInput = m.textInput ∧
      (Update env w m (Msg.errMsg e)).1.statusMsg = m.statusMsg ∧
      (∀ b : Bool, Update env w m (Msg.errMsg { e with notExist := b })
        = Update env w m (Msg.errMsg e)) := by
  simp [Update, Batch, GoError.Error]

/-! ## Navigation keeps the selection indices in range -/

theorem menu_up {W : Type} (env : Env W) (w : W) (m : Model) (k : KeyMsg)
    (hk : m.keyMap = DefaultKeyMap) (hs : m.state = StateMainMenu) (hr : menuInRange m)
    (hu : isUp k) :
    (Update env w m (Msg.KeyMsg k)).1.keyMap = DefaultKeyMap ∧
      (Update env w m (Msg.KeyMsg k)).1.state = StateMainMenu ∧
      menuInRange (Update env w m (Msg.KeyMsg k)).1 ∧
      (Update env w m (Msg.KeyMsg k)).2.2 = w ∧
      (Update env w m (Msg.KeyMsg k)).1.selectedMenu
        = (if m.selectedMenu = 0 then 0 else m.selectedMenu - 1) := by
  obtain ⟨h0, h1⟩ := hr
  have hm : Matches k DefaultKeyMap.Quit = false ∧ Matches k DefaultKeyMap.Up = true := by
    rcases hu with h | h <;> simp [Matches, DefaultKeyMap, NewBinding, h]
  by_cases hz : m.selectedMenu = 0
  · simp [Update, updateMainMenu, hk, hs, hm.1, hm.2, hz, menuInRange]
    omega
  · have hpos : m.selectedMenu > 0 := by omega
    simp [Update, updateMainMenu, hk, hs, hm.1, hm.2, hz, hpos, menuInRange]
    omega

theorem menu_down {W : Type} (env : Env W) (w : W) (m : Model) (k : KeyMsg)
    (hk : m.keyMap = DefaultKeyMap) (hs : m.state = StateMainMenu) (hr : menuInRange m)
    (hd : isDown k) :
    (Update env w m (Msg.KeyMsg k)).1.keyMap = DefaultKeyMap ∧
      (Update env w m (Msg.KeyMsg k)).1.state = StateMainMenu ∧
      menuInRange (Update env w m (Msg.KeyMsg k)).1 ∧
      (Update env w m (Msg.KeyMsg k)).2.2 = w ∧
      (Update env w m (Msg.KeyMsg k)).1.selectedMenu
        = (if m.selectedMenu = (m.menuItems.length : Int) - 1 then m.selectedMenu
            else m.selectedMenu + 1) := by
  obtain ⟨h0, h1⟩ := hr
  have hm : Matches k DefaultKeyMap.Quit = false ∧ Matches k DefaultKeyMap.Up = false ∧
      Matches k DefaultKeyMap.Down = true := by
    rcases hd with h | h <;> simp [Matches, DefaultKeyMap, NewBinding, h]
  by_cases hz : m.selectedMenu = (m.menuItems.length : Int) - 1
  · have hlt : ¬ m.selectedMenu < (m.menuItems.length : Int) - 1 := by omega
    simp [Update, updateMainMenu, hk, hs, hm.1, hm.2.1, hm.2.2, hz, menuInRange]
    omega
  · have hlt : m.selectedMenu < (m.menuItems.length : Int) - 1 := by omega
    simp [Update, updateMainMenu, hk, hs, hm.1, hm.2.1, hm.2.2, hz, hlt, menuInRange]
    omega

theorem menu_nav_step {W : Type} (env : Env W) (w : W) (m : Model) (msg : Msg)
    (hk : m.keyMap = DefaultKeyMap) (hs : m.state = StateMainMenu) (hr : menuInRange m)
    (hn : isNavigation msg) :
    (Update env w m msg).1.keyMap = DefaultKeyMap ∧
      (Update env w m msg).1.state = StateMainMenu ∧
      menuInRange (Update env w m msg).1 := by
  cases msg with
  | KeyMsg k =>
    rcases hn with hu | hd
    · have h := menu_up env w m k hk hs hr hu
      exact ⟨h.1, h.2.1, h.2.2.1⟩
    · have h := menu_down env w m k hk hs hr hd
      exact ⟨h.1, h.2.1, h.2.2.1⟩
  | _ => exact absurd hn (by simp [isNavigation])

theorem menu_nav_run {W : Type} (env : Env W) (msgs : List Msg) :
    ∀ (w : W) (m : Model), m.keyMap = DefaultKeyMap → m.state = StateMainMenu →
      menuInRange m → (∀ x ∈ msgs, isNavigation x) →
      (run env w m msgs).1.keyMap = DefaultKeyMap ∧
        (run env w m msgs).1.state = StateMainMenu ∧ menuInRange (run env w m msgs).1 := by
  induction msgs with
  | nil => intro w m hk hs hr _; exact ⟨hk, hs, hr⟩
  | cons msg rest ih =>
    intro w m hk hs hr hn
    have hstep := menu_nav_step env w m msg hk hs hr (hn msg (List.mem_cons_self _ _))
    have hrest : ∀ x ∈ rest, isNavigation x := fun x hx => hn x (List.mem_cons_of_mem _ hx)
    simpa [run] using ih _ _ hstep.1 hstep.2.1 hstep.2.2 hrest

theorem list_up {W : Type} (env : Env W) (w : W) (m : Model) (k : KeyMsg)
    (hk : m.keyMap = DefaultKeyMap) (hs : m.state = StateProjectList) (hr : projectInRange m)
    (hu : isUp k) :
    (Update env w m (Msg.KeyMsg k)).1.keyMap = DefaultKeyMap ∧
      (Update env w m (Msg.KeyMsg k)).1.state = StateProjectList ∧
      projectInRange (Update env w m (Msg.KeyMsg k)).1 ∧
      (Update env w m (Msg.KeyMsg k)).2.2 = w ∧
      (Update env w m (Msg.KeyMsg k)).1.selectedProject
        = (if m.selectedProject = 0 then 0 else m.selectedProject - 1) := by
  obtain ⟨h0, h1⟩ := hr
  have hm : Matches k DefaultKeyMap.Quit = false ∧ Matches k DefaultKeyMap.Up = true := by
    rcases hu with h | h <;> simp [Matches, DefaultKeyMap, NewBinding, h]
  by_cases hz : m.selectedProject = 0
  · simp [Update, updateProjectList, hk, hs, hm.1, hm.2, hz, projectInRange]
    omega
  · have hpos : m.selectedProject > 0 := by omega
    simp [Update, updateProjectList, hk, hs, hm.1, hm.2, hz, hpos, projectInRange]
    omega

theorem list_down {W : Type} (env : Env W) (w : W) (m : Model) (k : KeyMsg)
    (hk : m.keyMap = DefaultKeyMap) (hs : m.state = StateProjectList) (hr : projectInRange m)
    (hd : isDown k) :
    (Update env w m (Msg.KeyMsg k)).1.keyMap = DefaultKeyMap ∧
      (Update env w m (Msg.KeyMsg k)).1.state = StateProjectList ∧
      projectInRange (Update env w m (Msg.KeyMsg k)).1 ∧
      (Update env w m (Msg.KeyMsg k)).2.2 = w ∧
      (Update env w m (Msg.KeyMsg k)).1.selectedProject
        = (if m.selectedProject = (m.projects.length : Int) - 1 then m.selectedProject
            else m.selectedProject + 1) := by
  obtain ⟨h0, h1⟩ := hr
  have hm : Matches k DefaultKeyMap.Quit = false ∧ Matches k DefaultKeyMap.Up = false ∧
      Matches k DefaultKeyMap.Down = true := by
    rcases hd with h | h <;> simp [Matches, DefaultKeyMap, NewBinding, h]
  by_cases hz : m.selectedProject = (m.projects.length : Int) - 1
  · have hlt : ¬ m.selectedProject < (m.projects.length : Int) - 1 := by omega
    simp [Update, updateProjectList, hk, hs, hm.1, hm.2.1, hm.2.2, hz, projectInRange]
    omega
  · have hlt : m.selectedProject < (m.projects.length : Int) - 1 := by omega
    simp [Update, updateProjectList, hk, hs, hm.1, hm.2.1, hm.2.2, hz, hlt, projectInRange]
    omega

theorem list_nav_step {W : Type} (env : Env W) (w : W) (m : Model) (msg : Msg)
    (hk : m.keyMap = DefaultKeyMap) (hs : m.state = StateProjectList) (hr : projectInRange m)
    (hn : isNavigation msg) :
    (Update env w m msg).1.keyMap = DefaultKeyMap ∧
      (Update env w m msg).1.state = StateProjectList ∧
      projectInRange (Update env w m msg).1 := by
  cases msg with
  | KeyMsg k =>
    rcases hn with hu | hd
    · have h := list_up env w m k hk hs hr hu
      exact ⟨h.1, h.2.1, h.2.2.1⟩
    · have h := list_down env w m k hk hs hr hd
      exact ⟨h.1, h.2.1, h.2.2.1⟩
  | _ => exact absurd hn (by simp [isNavigation])

theorem list_nav_run {W : Type} (env : Env W) (msgs : List Msg) :
    ∀ (w : W) (m : Model), m.keyMap = DefaultKeyMap → m.state = StateProjectList →
      projectInRange m → (∀ x ∈ msgs, isNavigation x) →
      (run env w m msgs).1.keyMap = DefaultKeyMap ∧
        (run env w m msgs).1.state = StateProjectList ∧
        projectInRange (run env w m msgs).1 := by
  induction msgs with
  | nil => intro w m hk hs hr _; exact ⟨hk, hs, hr⟩
  | cons msg rest ih =>
    intro w m hk hs hr hn
    have hstep := list_nav_step env w m msg hk hs hr (hn msg (List.mem_cons_self _ _))
    have hrest : ∀ x ∈ rest, isNavigation x := fun x hx => hn x (List.mem_cons_of_mem _ hx)
    simpa [run] using ih _ _ hstep.1 hstep.2.1 hstep.2.2 hrest

/-- C2: with the default key map, in the main menu with a valid menu index
and in the project list with a valid project index, an up key gives the old
index minus one unless the index is 0, a down key gives the old index plus
one unless the index is the last one, and at the two ends the index stays
where it is (no wraparound); the index is valid after the event, and after
every finite sequence of navigation events. -/
theorem navigation_clamped {W : Type} (env : Env W) (w : W) (m : Model)
    (hk : m.keyMap = DefaultKeyMap) :
    (m.state = StateMainMenu → menuInRange m →
      (∀ k, isUp k → (Update env w m (Msg.KeyMsg k)).1.selectedMenu
          = (if m.selectedMenu = 0 then 0 else m.selectedMenu - 1)) ∧
      (∀ k, isDown k → (Update env w m (Msg.KeyMsg k)).1.selectedMenu
          = (if m.selectedMenu = (m.menuItems.length : Int) - 1 then m.selectedMenu
              else m.selectedMenu + 1)) ∧
      (∀ msg, isNavigation msg → menuInRange (Update env w m msg).1) ∧
      (∀ msgs : List Msg, (∀ x ∈ msgs, isNavigation x) →
          (run env w m msgs).1.state = StateMainMenu ∧ menuInRange (run env w m msgs).1)) ∧
    (m.state = StateProjectList → projectInRange m →
      (∀ k, isUp k → (Update env w m (Msg.KeyMsg k)).1.selectedProject
          = (if m.selectedProject = 0 then 0 else m.selectedProject - 1)) ∧
      (∀ k, isDown k → (Update env w m (Msg.KeyMsg k)).1.selectedProject
          = (if m.selectedProject = (m.projects.length : Int) - 1 then m.selectedProject
              else m.selectedProject + 1)) ∧
      (∀ msg, isNavigation msg → projectInRange (Update env w m msg).1) ∧
      (∀ msgs : List Msg, (∀ x ∈ msgs, isNavigation x) →
          (run env w m msgs).1.state = StateProjectList ∧
            projectInRange (run env w m msgs).1)) := by
  refine ⟨fun hs hr => ⟨?_, ?_, ?_, ?_⟩, fun hs hr => ⟨?_, ?_, ?_, ?_⟩⟩
  · intro k hu
    exact (menu_up env w m k hk hs hr hu).2.2.2.2
  · intro k hd
    exact (menu_down env w m k hk hs hr hd).2.2.2.2
  · intro msg hn
    exact (menu_nav_step env w m msg hk hs hr hn).2.2
  · intro msgs hn
    exact (menu_nav_run env msgs w m hk hs hr hn).2
  · intro k hu
    exact (list_up env w m k hk hs hr hu).2.2.2.2
  · intro k hd
    exact (list_down env w m k hk hs hr hd).2.2.2.2
  · intro msg hn
    exact (list_nav_step env w m msg hk hs hr hn).2.2
  · intro msgs hn
    exact (list_nav_run env msgs w m hk hs hr hn).2

theorem navigation_clamped_witness :
    (Update simEnv simWorld simModel (Msg.KeyMsg { str := "up" })).1.selectedMenu = 0 ∧
      (Update simEnv simWorld simModel (Msg.KeyMsg { str := "j" })).1.selectedMenu = 1 ∧
      menuInRange (run simEnv simWorld simModel
        [keyPress "down", keyPress "j", keyPress "down", keyPress "k"]).1 ∧
      (Update simEnv simWorld simListModel (Msg.KeyMsg { str := "down" })).1.selectedProject = 2 ∧
      (Update simEnv simWorld simListModel (Msg.KeyMsg { str := "k" })).1.selectedProject = 1 ∧
      projectInRange (run simEnv simWorld simListModel
        [keyPress "up", keyPress "up", keyPress "k", keyPress "down"]).1 :=
  have hm := (navigation_clamped simEnv simWorld simModel rfl).1 rfl ⟨by decide, by decide⟩
  have hl := (navigation_clamped simEnv simWorld simListModel rfl).2 rfl ⟨by decide, by decide⟩
  ⟨hm.1 _ (Or.inl rfl), hm.2.1 _ (Or.inr rfl),
    (hm.2.2.2 _ (by simp [keyPress, isNavigation, isUp, isDown])).2,
    hl.2.1 _ (Or.inl rfl), hl.1 _ (Or.inr rfl),
    (hl.2.2.2 _ (by simp [keyPress, isNavigation, isUp, isDown])).2⟩

/-! ## Select and back -/

theorem matches_enter :
    Matches { str := "enter" } DefaultKeyMap.Quit = false ∧
      Matches { str := "enter" } DefaultKeyMap.Up = false ∧
      Matches { str := "enter" } DefaultKeyMap.Down = false ∧
      Matches { str := "enter" } DefaultKeyMap.Select = true := by
  simp [Matches, DefaultKeyMap, NewBinding]

theorem matches_enter_back : Matches { str := "enter" } DefaultKeyMap.Back = false := by
  simp [Matches, DefaultKeyMap, NewBinding]

theorem matches_esc :
    Matches { str := "esc" } DefaultKeyMap.Quit = false ∧
      Matches { str := "esc" } DefaultKeyMap.Up = false ∧
      Matches { str := "esc" } DefaultKeyMap.Down = false ∧
      Matches { str := "esc" } DefaultKeyMap.Select = false ∧
      Matches { str := "esc" } DefaultKeyMap.Back = true := by
  simp [Matches, DefaultKeyMap, NewBinding]

/-- C10: with the default key map, `Update` on the select key (enter) and on
the back key (esc) follows the transition table, with or without a pending
operation: main menu + select on item 0 ("List projects") with a non-empty
project list gives the project list; main menu + select on item 1 ("New
project") gives the new-project input with an empty input buffer; project
list + select gives the project detail when there are projects and leaves
the session as it is when there are none; project list + back gives the main
menu; project detail + back gives the project list; new-project input + back
gives the main menu.  Each result is the old session with only the named
fields changed, so projects and both selection indices are kept, and the
command is nil. -/
theorem select_back_follow_table {W : Type} (env : Env W) (w : W) (m : Model)
    (hk : m.keyMap = DefaultKeyMap) :
    (m.state = StateMainMenu → m.selectedMenu = 0 → m.projects ≠ [] →
      Update env w m (keyPress "enter") = ({ m with state := StateProjectList }, Cmd.nil, w)) ∧
    (m.state = StateMainMenu → m.selectedMenu = 1 →
      Update env w m (keyPress "enter")
          = ({ m with state := StateNewProject, textInput := (m.textInput.SetValue "").Focus },
              Cmd.nil, w) ∧
        (Update env w m (keyPress "enter")).1.textInput.Value = "") ∧
    (m.state = StateProjectList → m.projects ≠ [] →
      Update env w m (keyPress "enter") = ({ m with state := StateProjectDetail }, Cmd.nil, w)) ∧
    (m.state = StateProjectList → m.projects = [] →
      Update env w m (keyPress "enter") = (m, Cmd.nil, w)) ∧
    (m.state = StateProjectList →
      Update env w m (keyPress "esc") = ({ m with state := StateMainMenu }, Cmd.nil, w)) ∧
    (m.state = StateProjectDetail →
      Update env w m (keyPress "esc") = ({ m with state := StateProjectList }, Cmd.nil, w)) ∧
    (m.state = StateNewProject →
      Update env w m (keyPress "esc")
          = ({ m with
                state := StateMainMenu
                textInput := (env.textInputUpdate m.textInput (keyPress "esc")).1 },
              Cmd.nil, w)) := by
  obtain ⟨eq, eu, ed, es⟩ := matches_enter
  obtain ⟨bq, bu, bd, bs, bb⟩ := matches_esc
  refine ⟨?_, ?_, ?_, ?_, ?_, ?_, ?_⟩
  · intro hs h0 hp
    simp [Update, updateMainMenu, keyPress, hk, hs, eq, eu, ed, es, h0, hp]
  · intro hs h1
    have hv := setValue_empty_value m.textInput
    simp only [TextInput.Value] at hv
    simp [Update, updateMainMenu, keyPress, hk, hs, eq, eu, ed, es, h1, TextInput.Focus,
      TextInput.Value, hv]
  · intro hs hp
    have hlen : m.projects.length > 0 := List.length_pos.mpr hp
    simp [Update, updateProjectList, keyPress, hk, hs, eq, eu, ed, es, hlen]
  · intro hs hp
    simp [Update, updateProjectList, keyPress, hk, hs, eq, eu, ed, es, hp]
  · intro hs
    simp [Update, updateProjectList, keyPress, hk, hs, bq, bu, bd, bs, bb]
  · intro hs
    simp [Update, updateProjectDetail, keyPress, hk, hs, bq, bb]
  · intro hs
    simp [Update, updateNewProject, keyPress, hk, hs, bq, bb]

theorem select_back_follow_table_witness :
    Update simEnv simWorld { simModel with selectedMenu := 1 } (keyPress "enter")
        = ({ simModel with selectedMenu := 1, state := StateNewProject }, Cmd.nil, simWorld) ∧
      Update simEnv simWorld simListModel (keyPress "enter")
        = ({ simListModel with state := StateProjectDetail }, Cmd.nil, simWorld) ∧
      Update simEnv simWorld simListModel (keyPress "esc")
        = ({ simListModel with state := StateMainMenu }, Cmd.nil, simWorld) :=
  ⟨((select_back_follow_table simEnv simWorld { simModel with selectedMenu := 1 } rfl).2.1
      rfl rfl).1,
    (select_back_follow_table simEnv simWorld simListModel rfl).2.2.1 rfl (by decide),
    (select_back_follow_table simEnv simWorld simListModel rfl).2.2.2.2.1 rfl⟩

/-- C9, as the code has it: with the default key map, each transition of the
claim (back from the project list to the main menu, back from the project
detail to the project list, select from the main menu into the project list
or into the new-project input, select from the project list into the project
detail) takes place and leaves the error and the status exactly as they
were; `Update` has no statement that empties either of them. -/
theorem transitions_keep_error_and_status {W : Type} (env : Env W) (w : W) (m : Model)
    (hk : m.keyMap = DefaultKeyMap) :
    (m.state = StateProjectList →
      (Update env w m (keyPress "esc")).1.state = StateMainMenu ∧
        (Update env w m (keyPress "esc")).1.error = m.error ∧
        (Update env w m (keyPress "esc")).1.statusMsg = m.statusMsg) ∧
    (m.state = StateProjectDetail →
      (Update env w m (keyPress "esc")).1.state = StateProjectList ∧
        (Update env w m (keyPress "esc")).1.error = m.error ∧
        (Update env w m (keyPress "esc")).1.statusMsg = m.statusMsg) ∧
    (m.state = StateMainMenu → m.selectedMenu = 0 → m.projects ≠ [] →
      (Update env w m (keyPress "enter")).1.state = StateProjectList ∧
        (Update env w m (keyPress "enter")).1.error = m.error ∧
        (Update env w m (keyPress "enter")).1.statusMsg = m.statusMsg) ∧
    (m.state = StateMainMenu → m.selectedMenu = 1 →
      (Update env w m (keyPress "enter")).1.state = StateNewProject ∧
        (Update env w m (keyPress "enter")).1.error = m.error ∧
        (Update env w m (keyPress "enter")).1.statusMsg = m.statusMsg) ∧
    (m.state = StateProjectList → m.projects ≠ [] →
      (Update env w m (keyPress "enter")).1.state = StateProjectDetail ∧
        (Update env w m (keyPress "enter")).1.error = m.error ∧
        (Update env w m (keyPress "enter")).1.statusMsg = m.statusMsg) := by
  obtain ⟨eq, eu, ed, es⟩ := matches_enter
  obtain ⟨bq, bu, bd, bs, bb⟩ := matches_esc
  refine ⟨?_, ?_, ?_, ?_, ?_⟩
  · intro hs
    simp [Update, updateProjectList, keyPress, hk, hs, bq, bu, bd, bs, bb]
  · intro hs
    simp [Update, updateProjectDetail, keyPress, hk, hs, bq, bb]
  · intro hs h0 hp
    simp [Update, updateMainMenu, keyPress, hk, hs, eq, eu, ed, es, h0, hp]
  · intro hs h1
    simp [Update, updateMainMenu, keyPress, hk, hs, eq, eu, ed, es, h1]
  · intro hs hp
    have hlen : m.projects.length > 0 := List.length_pos.mpr hp
    simp [Update, updateProjectList, keyPress, hk, hs, eq, eu, ed, es, hlen]

theorem transitions_keep_error_and_status_witness :
    (Update simEnv simWorld simErrModel (keyPress "esc")).1.state = StateMainMenu ∧
      (Update simEnv simWorld simErrModel (keyPress "esc")).1.error = simErrModel.error ∧
      (Update simEnv simWorld simErrModel (keyPress "esc")).1.statusMsg
        = simErrModel.statusMsg :=
  (transitions_keep_error_and_status simEnv simWorld simErrModel rfl).1 rfl

/-- C9, counterexample: the session is in the project list and shows an
error and a status; the back key takes it to the main menu, and both strings
are still there. -/
theorem transition_clears_error_counterexample :
    simErrModel.state = StateProjectList ∧
      (Update simEnv simWorld simErrModel (keyPress "esc")).1.state = StateMainMenu ∧
      (Update simEnv simWorld simErrModel (keyPress "esc")).1.error
        = "parent directory does not exist: /home/u/projects" ∧
      (Update simEnv simWorld simErrModel (keyPress "esc")).1.statusMsg
        = "Found 3 uv projects" ∧
      ¬ ((Update simEnv simWorld simErrModel (keyPress "esc")).1.error = "" ∧
          (Update simEnv simWorld simErrModel (keyPress "esc")).1.statusMsg = "") := by
  decide

/-! ## Launch requests while an operation is pending -/

theorem matches_r :
    Matches { str := "r" } DefaultKeyMap.Quit = false ∧
      Matches { str := "r" } DefaultKeyMap.Up = false ∧
      Matches { str := "r" } DefaultKeyMap.Down = false ∧
      Matches { str := "r" } DefaultKeyMap.Select = false ∧
      Matches { str := "r" } (NewBinding ["r"]) = true := by
  simp [Matches, DefaultKeyMap, NewBinding]

theorem matches_s :
    Matches { str := "s" } DefaultKeyMap.Quit = false ∧
      Matches { str := "s" } DefaultKeyMap.Up = false ∧
      Matches { str := "s" } DefaultKeyMap.Down = false ∧
      Matches { str := "s" } DefaultKeyMap.Select = false ∧
      Matches { str := "s" } DefaultKeyMap.Back = false ∧
      Matches { str := "s" } DefaultKeyMap.Scan = true := by
  simp [Matches, DefaultKeyMap, NewBinding]

/-- C1, as the code has it: `Update` never reads the loading flag, so a
launch request is honoured while an operation is pending.  With the default
key map and the loading flag set, the rescan key of the main menu ("r"), the
rescan key of the project list ("s") and select on item 0 ("List projects")
with an empty project list each return the scan command again and leave the
session as it was apart from the loading message; submit in the new-project
input, with a non-empty name that does not exist under the root, returns the
provisioning command and leaves the session as it was apart from the text
input having seen the key and the loading message. -/
theorem launch_while_loading_starts_task {W : Type} (env : Env W) (w : W) (m : Model)
    (hk : m.keyMap = DefaultKeyMap) (hl : m.loading = true) :
    (m.state = StateMainMenu →
      Update env w m (keyPress "r")
        = ({ m with loadingMsg := scanningMsg }, Cmd.scanProjects m.scanner, w)) ∧
    (m.state = StateProjectList →
      Update env w m (keyPress "s")
        = ({ m with loadingMsg := scanningMsg }, Cmd.scanProjects m.scanner, w)) ∧
    (m.state = StateMainMenu → m.selectedMenu = 0 → m.projects = [] →
      Update env w m (keyPress "enter")
        = ({ m with loadingMsg := scanningMsg }, Cmd.scanProjects m.scanner, w)) ∧
    (m.state = StateNewProject →
      (env.textInputUpdate m.textInput (keyPress "enter")).1.Value ≠ "" →
      IsNotExist (errOf (env.Stat w (env.Join m.config.ParentDirectory
        (env.textInputUpdate m.textInput (keyPress "enter")).1.Value))) = true →
      Update env w m (keyPress "enter")
        = ({ m with
              textInput := (env.textInputUpdate m.textInput (keyPress "enter")).1
              loadingMsg := "Creating new project: " ++
                (env.textInputUpdate m.textInput (keyPress "enter")).1.Value },
            Cmd.createProject m.scanner
              (env.Join m.config.ParentDirectory
                (env.textInputUpdate m.textInput (keyPress "enter")).1.Value)
              (env.textInputUpdate m.textInput (keyPress "enter")).1.Value,
            w)) := by
  obtain ⟨eq, eu, ed, es⟩ := matches_enter
  obtain ⟨rq, ru, rd, rs, rr⟩ := matches_r
  obtain ⟨sq, su, sd, ss, sb, sc⟩ := matches_s
  cases m
  simp only at hk hl
  subst hk hl
  refine ⟨?_, ?_, ?_, ?_⟩
  · intro hs
    simp only at hs
    simp [Update, updateMainMenu, keyPress, hs, rq, ru, rd, rs, rr]
  · intro hs
    simp only at hs
    simp [Update, updateProjectList, keyPress, hs, sq, su, sd, ss, sb, sc]
  · intro hs h0 hp
    simp only at hs h0 hp
    simp [Update, updateMainMenu, keyPress, hs, eq, eu, ed, es, h0, hp]
  · intro hs hne hstat
    simp only [keyPress] at hs hne hstat
    simp [Update, updateNewProject, keyPress, hs, eq, es, hne, hstat, matches_enter_back]

theorem launch_while_loading_starts_task_witness :
    simLoadingModel.loading = true ∧
      Update simEnv simWorld simLoadingModel (keyPress "r")
        = (simLoadingModel, Cmd.scanProjects (NewScanner "/home/u/projects"), simWorld) ∧
      Update simEnv simWorld simCreatingModel (keyPress "enter")
        = (simCreatingModel,
            Cmd.createProject (NewScanner "/home/u/projects") "/home/u/projects/fresh" "fresh",
            simWorld) :=
  ⟨rfl, (launch_while_loading_starts_task simEnv simWorld simLoadingModel rfl rfl).1 rfl,
    (launch_while_loading_starts_task simEnv simWorld simCreatingModel rfl rfl).2.2.2 rfl
      (by decide) (by decide)⟩

/-- C1, counterexample: a scan is pending in the main menu and the rescan key
is pressed; `Update` returns the scan command, not nil. -/
theorem launch_while_loading_counterexample :
    simLoadingModel.loading = true ∧ simLoadingModel.state = StateMainMenu ∧
      (Update simEnv simWorld simLoadingModel (keyPress "r")).2.1
        = Cmd.scanProjects (NewScanner "/home/u/projects") ∧
      (Update simEnv simWorld simLoadingModel (keyPress "r")).2.1 ≠ Cmd.nil := by
  decide

/-! ## Key events do not read the loading flag -/

theorem useDefaultDirectory_loading {W : Type} (env : Env W) (w : W) (m m1 : Model)
    (h : m1 = { m with loading := true }) :
    useDefaultDirectory env w m1 = withLoading (useDefaultDirectory env w m) := by
  subst h
  unfold useDefaultDirectory withLoading
  cases env.UserHomeDir w with
  | error e => simp
  | ok homeDir =>
    simp only
    split
    · simp
    · simp only [Config.Save]
      split <;> simp

theorem firstRunAccept_loading {W : Type} (env : Env W) (w : W) (m m1 : Model)
    (inputPath : String) (fileInfo : FileInfo) (h : m1 = { m with loading := true }) :
    firstRunAccept env w m1 inputPath fileInfo
      = withLoading (firstRunAccept env w m inputPath fileInfo) := by
  subst h
  unfold firstRunAccept
  split
  · exact useDefaultDirectory_loading env w _ _ rfl
  · simp only [Config.Save]
    split
    · exact useDefaultDirectory_loading env _ _ _ rfl
    · split
      · exact useDefaultDirectory_loading env _ _ _ rfl
      · simp [withLoading]

theorem firstRunResolve_loading {W : Type} (env : Env W) (w : W) (m m1 : Model)
    (inputPath : String) (h : m1 = { m with loading := true }) :
    firstRunResolve env w m1 inputPath = withLoading (firstRunResolve env w m inputPath) := by
  subst h
  unfold firstRunResolve
  split
  · exact firstRunAccept_loading env w _ _ _ _ rfl
  · split
    · split
      · exact useDefaultDirectory_loading env _ _ _ rfl
      · split
        · exact useDefaultDirectory_loading env _ _ _ rfl
        · exact firstRunAccept_loading env _ _ _ _ _ rfl
    · exact useDefaultDirectory_loading env _ _ _ rfl

theorem updateFirstRun_loading {W : Type} (env : Env W) (w : W) (m m1 : Model) (msg : Msg)
    (h : m1 = { m with loading := true }) :
    updateFirstRun env w m1 msg = withLoading (updateFirstRun env w m msg) := by
  subst h
  unfold updateFirstRun
  cases msg with
  | KeyMsg k =>
    simp only
    split
    · split
      · split
        · split
          · exact useDefaultDirectory_loading env _ _ _ rfl
          · exact firstRunResolve_loading env _ _ _ _ rfl
        · exact firstRunResolve_loading env _ _ _ _ rfl
      · simp [withLoading]
    · simp [withLoading]
  | _ => simp [withLoading]

theorem updateMainMenu_loading (m : Model) (msg : Msg) :
    updateMainMenu { m with loading := true } msg
      = ({ (updateMainMenu m msg).1 with loading := true }, (updateMainMenu m msg).2) := by
  unfold updateMainMenu
  cases msg with
  | KeyMsg k =>
    simp only
    split_ifs <;> simp
  | _ => simp

theorem updateProjectList_loading (m : Model) (msg : Msg) :
    updateProjectList { m with loading := true } msg
      = ({ (updateProjectList m msg).1 with loading := true }, (updateProjectList m msg).2) := by
  unfold updateProjectList
  cases msg with
  | KeyMsg k =>
    simp only
    split_ifs <;> simp
  | _ => simp

theorem updateProjectDetail_loading (m : Model) (msg : Msg) :
    updateProjectDetail { m with loading := true } msg
      = ({ (updateProjectDetail m msg).1 with loading := true },
          (updateProjectDetail m msg).2) := by
  unfold updateProjectDetail
  cases msg with
  | KeyMsg k =>
    simp only
    split_ifs <;> simp
  | _ => simp

theorem updateNewProject_loading {W : Type} (env : Env W) (w : W) (m : Model) (msg : Msg) :
    updateNewProject env w { m with loading := true } msg
      = ({ (updateNewProject env w m msg).1 with loading := true },
          (updateNewProject env w m msg).2) := by
  unfold updateNewProject
  cases msg with
  | KeyMsg k =>
    simp only
    split_ifs <;> simp
  | _ => simp

theorem update_key_loading {W : Type} (env : Env W) (w : W) (m : Model) (k : KeyMsg) :
    Update env w { m with loading := true } (Msg.KeyMsg k)
      = withLoading (Update env w m (Msg.KeyMsg k)) := by
  have h1 := updateMainMenu_loading m (Msg.KeyMsg k)
  have h2 := updateFirstRun_loading env w m _ (Msg.KeyMsg k) rfl
  have h3 := updateProjectList_loading m (Msg.KeyMsg k)
  have h4 := updateProjectDetail_loading m (Msg.KeyMsg k)
  have h5 := updateNewProject_loading env w m (Msg.KeyMsg k)
  unfold Update
  simp only
  split_ifs with hq
  · simp [withLoading]
  · cases hs : m.state <;> rw [hs] at h1 h2 h3 h4 h5 <;>
      simp [withLoading, h1, h2, h3, h4, h5, hs]

theorem update_clears_loading_iff {W : Type} (env : Env W) (w : W) (m : Model) (msg : Msg)
    (hl : m.loading = true) :
    (Update env w m msg).1.loading = false ↔ clearsLoading msg = true := by
  cases msg with
  | KeyMsg k =>
    have hm : m = { m with loading := true } := by cases m; simp_all
    rw [hm, update_key_loading]
    simp [withLoading, clearsLoading]
  | projectsFoundMsg ps =>
    by_cases h : ps = [] ∧ ¬ m.state = StateMainMenu <;> simp [Update, clearsLoading, h]
  | _ => simp [Update, clearsLoading, hl]

/-- C5, as the code has it: the loading flag does not gate the keys.  For a
session with the loading flag set and a key other than quit, `Update` gives
what it gives for the same session with the flag clear, with the flag set
again: state, both selection indices, input buffer and command are those of
the ordinary handling of the key, and the flag stays set.  Keys are ignored
only in the state `StateLoading`.  The messages that clear the flag of such
a session are exactly the scan-completed, provisioning-completed, status and
error messages. -/
theorem keys_handled_while_loading {W : Type} (env : Env W) (w : W) (m : Model) (k : KeyMsg)
    (hl : m.loading = true) (hq : Matches k m.keyMap.Quit = false) :
    Update env w m (Msg.KeyMsg k)
        = withLoading (Update env w { m with loading := false } (Msg.KeyMsg k)) ∧
      (Update env w m (Msg.KeyMsg k)).1.loading = true ∧
      (Update env w m (Msg.KeyMsg k)).1.state
        = (Update env w { m with loading := false } (Msg.KeyMsg k)).1.state ∧
      (Update env w m (Msg.KeyMsg k)).1.selectedMenu
        = (Update env w { m with loading := false } (Msg.KeyMsg k)).1.selectedMenu ∧
      (Update env w m (Msg.KeyMsg k)).1.selectedProject
        = (Update env w { m with loading := false } (Msg.KeyMsg k)).1.selectedProject ∧
      (Update env w m (Msg.KeyMsg k)).1.textInput
        = (Update env w { m with loading := false } (Msg.KeyMsg k)).1.textInput ∧
      (Update env w m (Msg.KeyMsg k)).2
        = (Update env w { m with loading := false } (Msg.KeyMsg k)).2 ∧
      (m.state = StateLoading → Update env w m (Msg.KeyMsg k) = (m, Cmd.nil, w)) ∧
      (∀ msg, (Update env w m msg).1.loading = false ↔ clearsLoading msg = true) := by
  have hm : m = { ({ m with loading := false } : Model) with loading := true } := by
    cases m; simp_all
  have h := update_key_loading env w { m with loading := false } k
  rw [← hm] at h
  refine ⟨h, ?_, ?_, ?_, ?_, ?_, ?_, ?_, ?_⟩
  · rw [h]; rfl
  · rw [h]; rfl
  · rw [h]; rfl
  · rw [h]; rfl
  · rw [h]; rfl
  · rw [h]; rfl
  · intro hs
    simp [Update, hq, hs]
  · intro msg
    exact update_clears_loading_iff env w m msg hl

theorem keys_handled_while_loading_witness :
    simLoadingModel.loading = true ∧
      Matches { str := "down" } simLoadingModel.keyMap.Quit = false ∧
      Update simEnv simWorld simLoadingModel (Msg.KeyMsg { str := "down" })
        = ({ simLoadingModel with selectedMenu := 1 }, Cmd.nil, simWorld) ∧
      (Update simEnv simWorld simLoadingModel (Msg.KeyMsg { str := "down" })).1.loading = true :=
  ⟨rfl, by decide,
    (keys_handled_while_loading simEnv simWorld simLoadingModel { str := "down" } rfl
      (by decide)).1,
    (keys_handled_while_loading simEnv simWorld simLoadingModel { str := "down" } rfl
      (by decide)).2.1⟩

/-- C5, counterexample: a scan is pending in the main menu.  The down key
moves the menu index from 0 to 1, and select on item 1 then changes the state
to the new-project input. -/
theorem key_ignored_while_loading_counterexample :
    simLoadingModel.loading = true ∧ simLoadingModel.selectedMenu = 0 ∧
      Matches { str := "down" } simLoadingModel.keyMap.Quit = false ∧
      Matches { str := "enter" } simLoadingModel.keyMap.Quit = false ∧
      (Update simEnv simWorld simLoadingModel (keyPress "down")).1.selectedMenu = 1 ∧
      (Update simEnv simWorld
        (Update simEnv simWorld simLoadingModel (keyPress "down")).1 (keyPress "enter")).1.state
        = StateNewProject ∧
      (Update simEnv simWorld
        (Update simEnv simWorld simLoadingModel (keyPress "down")).1 (keyPress "enter")).1.loading
        = true := by
  decide

/-- C3, failing input: the project list holds three projects and the last one
is selected (index 2); a scan-completed message, and likewise a
provisioning-completed message, brings a list of one project.  `Update`
stores the new list and leaves the index at 2, which is not below the new
length 1: the index is not clamped. -/
theorem selection_not_clamped_on_replace :
    projectInRange simListModel ∧
      (Update simEnv simWorld simListModel
        (Msg.projectsFoundMsg [simProject "alpha"])).1.projects.length = 1 ∧
      (Update simEnv simWorld simListModel
        (Msg.projectsFoundMsg [simProject "alpha"])).1.selectedProject = 2 ∧
      (Update simEnv simWorld simListModel
        (Msg.projectsFoundMsg [simProject "alpha"])).1.state = StateProjectList ∧
      ¬ projectInRange (Update simEnv simWorld simListModel
        (Msg.projectsFoundMsg [simProject "alpha"])).1 ∧
      (Update simEnv simWorld simListModel
        (Msg.projectCreatedMsg [simProject "alpha"] "alpha")).1.selectedProject = 2 ∧
      ¬ projectInRange (Update simEnv simWorld simListModel
        (Msg.projectCreatedMsg [simProject "alpha"] "alpha")).1 := by
  decide

/-! ## The rescan key of the main menu -/

/-- C11, failing input: the main menu with no pending operation receives the
key "s", which matches the Scan binding of the key map.  `Update` returns the
session as it was and no command: no scan is launched and the loading flag
stays clear.  The same key launches the scan in the project list, and in the
main menu the scan is launched by the key "r", which the key map does not
name. -/
theorem scan_key_ignored_in_main_menu :
    simModel.state = StateMainMenu ∧ simModel.loading = false ∧
      Matches { str := "s" } simModel.keyMap.Scan = true ∧
      Update simEnv simWorld simModel (keyPress "s") = (simModel, Cmd.nil, simWorld) ∧
      (Update simEnv simWorld simModel (keyPress "s")).1.loading = false ∧
      Update simEnv simWorld simListModel (keyPress "s")
        = ({ simListModel with loading := true, loadingMsg := scanningMsg },
            Cmd.scanProjects (NewScanner "/home/u/projects"), simWorld) ∧
      Update simEnv simWorld simModel (keyPress "r")
        = ({ simModel with loading := true, loadingMsg := scanningMsg },
            Cmd.scanProjects (NewScanner "/home/u/projects"), simWorld) := by
  decide

/-! ## Submitting a name that exists -/

/-- C13: with the default key map, in the new-project input, when the input
buffer holds a non-empty name n (the value of the text input once it has seen
the key) and the lookup of root/n does not answer that the path does not
exist (in particular when root/n exists), submit sets the error to
"Project n already exists", returns no command and leaves the world as it
was; state, loading flag and projects are unchanged. -/
theorem submit_existing_name_rejected {W : Type} (env : Env W) (w : W) (m : Model)
    (hk : m.keyMap = DefaultKeyMap) (hs : m.state = StateNewProject)
    (hne : (env.textInputUpdate m.textInput (keyPress "enter")).1.Value ≠ "")
    (hex : IsNotExist (errOf (env.Stat w (env.Join m.config.ParentDirectory
      (env.textInputUpdate m.textInput (keyPress "enter")).1.Value))) = false) :
    Update env w m (keyPress "enter")
        = ({ m with
              textInput := (env.textInputUpdate m.textInput (keyPress "enter")).1
              error := "Project " ++
                (env.textInputUpdate m.textInput (keyPress "enter")).1.Value ++
                " already exists" },
            Cmd.nil, w) ∧
      (Update env w m (keyPress "enter")).2.1 = Cmd.nil ∧
      (Update env w m (keyPress "enter")).2.2 = w ∧
      (Update env w m (keyPress "enter")).1.state = m.state ∧
      (Update env w m (keyPress "enter")).1.loading = m.loading ∧
      (Update env w m (keyPress "enter")).1.projects = m.projects := by
  obtain ⟨eq, eu, ed, es⟩ := matches_enter
  simp only [keyPress] at hne hex
  simp [Update, updateNewProject, keyPress, hk, hs, eq, es, hne, hex, matches_enter_back]

theorem submit_existing_name_rejected_witness :
    Update simEnv simWorld
        { simModel with
          state := StateNewProject
          textInput := { value := "demo", pos := 4, focus := true, CharLimit := 256 } }
        (keyPress "enter")
      = ({ simModel with
            state := StateNewProject
            textInput := { value := "demo", pos := 4, focus := true, CharLimit := 256 }
            error := "Project demo already exists" },
          Cmd.nil, simWorld) :=
  (submit_existing_name_rejected simEnv simWorld
    { simModel with
      state := StateNewProject
      textInput := { value := "demo", pos := 4, focus := true, CharLimit := 256 } }
    rfl rfl (by decide) (by decide)).1

/-! ## FormatSize -/

theorem wrap64_of_range (x : Int) (h0 : 0 ≤ x) (h1 : x < 2 ^ 63) : wrap64 x = x := by
  unfold wrap64
  omega

theorem formatSizeLoop_spec (size : Int) (hs : size < 2 ^ 63) (n div : Int) (exp : Nat) :
    1 ≤ n → div = 1024 ^ (exp + 1) → div * n ≤ size → size < div * (n + 1) →
      (formatSizeLoop n div exp).1 = 1024 ^ ((formatSizeLoop n div exp).2 + 1) ∧
        (formatSizeLoop n div exp).1 ≤ size ∧
        size < 1024 * (formatSizeLoop n div exp).1 := by
  induction n, div, exp using formatSizeLoop.induct with
  | case1 n div exp hn ih =>
    intro h1 hdiv hle hlt
    have hpos : (0 : Int) < div := by rw [hdiv]; positivity
    have h0 : (0 : Int) ≤ n := by omega
    have hq : n.tdiv 1024 = n / 1024 := Int.tdiv_eq_ediv h0 (by decide)
    have hbound : div * 1024 ≤ div * n := by nlinarith
    have hw : wrap64 (div * 1024) = div * 1024 :=
      wrap64_of_range _ (by positivity) (by omega)
    rw [formatSizeLoop, if_pos hn]
    rw [hq, hw] at ih ⊢
    apply ih
    · omega
    · rw [hdiv]; ring
    · have : 1024 * (n / 1024) ≤ n := by omega
      nlinarith
    · have : n + 1 ≤ 1024 * (n / 1024 + 1) := by omega
      nlinarith
  | case2 n div exp hn =>
    intro h1 hdiv hle hlt
    have hpos : (0 : Int) < div := by rw [hdiv]; positivity
    rw [formatSizeLoop, if_neg hn]
    refine ⟨hdiv, by nlinarith, by nlinarith⟩

theorem kmgtpe_index (e : Nat) (h : e ≤ 5) : ∃ c, "KMGTPE".toList[e]? = some c := by
  interval_cases e <;> exact ⟨_, rfl⟩

/-- C17: for every 64-bit signed size, when the size is below 1024 (negative
sizes included) `FormatSize` returns the decimal size followed by " B";
otherwise its loop ends with `exp` at most 5, so that the index into "KMGTPE"
is in range and a string is returned, and with `div` equal to
1024 ^ (exp + 1), a value below 2 ^ 63 that the wrapping `int64` products
reach exactly, such that div ≤ size < 1024 * div. -/
theorem formatSize_bounds (fmt : Int → Int → String) (size : Int)
    (hlo : -2 ^ 63 ≤ size) (hhi : size < 2 ^ 63) :
    (size < 1024 → FormatSize fmt size = some (toString size ++ " B")) ∧
    (1024 ≤ size →
      (formatSizeLoop (size.tdiv 1024) 1024 0).2 ≤ 5 ∧
      (∃ c, "KMGTPE".toList[(formatSizeLoop (size.tdiv 1024) 1024 0).2]? = some c ∧
        FormatSize fmt size
          = some (fmt size (formatSizeLoop (size.tdiv 1024) 1024 0).1 ++ " " ++
              String.singleton c ++ "B")) ∧
      (formatSizeLoop (size.tdiv 1024) 1024 0).1
        = 1024 ^ ((formatSizeLoop (size.tdiv 1024) 1024 0).2 + 1) ∧
      (formatSizeLoop (size.tdiv 1024) 1024 0).1 < 2 ^ 63 ∧
      (formatSizeLoop (size.tdiv 1024) 1024 0).1 ≤ size ∧
      size < 1024 * (formatSizeLoop (size.tdiv 1024) 1024 0).1) := by
  constructor
  · intro h
    simp [FormatSize, h]
  · intro h
    have h0 : (0 : Int) ≤ size := by omega
    have hq : size.tdiv 1024 = size / 1024 := Int.tdiv_eq_ediv h0 (by decide)
    have hspec := formatSizeLoop_spec size hhi (size.tdiv 1024) 1024 0
      (by rw [hq]; omega) (by norm_num) (by rw [hq]; omega) (by rw [hq]; omega)
    obtain ⟨hpow, hle, hlt⟩ := hspec
    have hexp : (formatSizeLoop (size.tdiv 1024) 1024 0).2 ≤ 5 := by
      by_contra hcon
      have h7 : (1024 : Int) ^ 7
          ≤ 1024 ^ ((formatSizeLoop (size.tdiv 1024) 1024 0).2 + 1) :=
        pow_le_pow_right₀ (by norm_num) (by omega)
      rw [← hpow] at h7
      norm_num at h7
      omega
    obtain ⟨c, hc⟩ := kmgtpe_index _ hexp
    refine ⟨hexp, ⟨c, hc, ?_⟩, hpow, by omega, hle, hlt⟩
    have hnot : ¬ size < 1024 := by omega
    simp only [FormatSize, hnot, if_false, hc]

theorem formatSize_bounds_witness :
    FormatSize (fun _ _ => "1.5") (-3) = some (toString (-3 : Int) ++ " B") ∧
      (formatSizeLoop ((1536 : Int).tdiv 1024) 1024 0).2 ≤ 5 ∧
      (formatSizeLoop ((1536 : Int).tdiv 1024) 1024 0).1 ≤ 1536 :=
  ⟨(formatSize_bounds (fun _ _ => "1.5") (-3) (by norm_num) (by norm_num)).1 (by norm_num),
    ((formatSize_bounds (fun _ _ => "1.5") 1536 (by norm_num) (by norm_num)).2
      (by norm_num)).1,
    ((formatSize_bounds (fun _ _ => "1.5") 1536 (by norm_num) (by norm_num)).2
      (by norm_num)).2.2.2.2.1⟩

/-! ## ScanProjects -/

theorem scanEntry_of_passing {W : Type} (env : Env W) (w : W) (s : Scanner) (e : DirEntry)
    (h : (e.IsDir && notReportedMissing env w (env.Join s.ParentDir e.Name)) = true)
    (hinfo : errOf (env.EntryInfo w s.ParentDir e) = none) :
    ∃ p, scanEntry env w s e = some (some p) ∧ p.Name = e.Name ∧
      p.Path = env.Join s.ParentDir e.Name := by
  simp only [Bool.and_eq_true] at h
  obtain ⟨hd, hp⟩ := h
  simp only [notReportedMissing, pathPresent] at hp
  unfold scanEntry
  simp only [hd, hp]
  cases hi : env.EntryInfo w s.ParentDir e with
  | error err => simp [hi, errOf] at hinfo
  | ok info => exact ⟨_, rfl, rfl, rfl⟩

theorem scanEntry_of_other {W : Type} (env : Env W) (w : W) (s : Scanner) (e : DirEntry)
    (h : (e.IsDir && notReportedMissing env w (env.Join s.ParentDir e.Name)) = false) :
    scanEntry env w s e = some none := by
  unfold scanEntry
  cases hd : e.IsDir with
  | false => simp
  | true =>
    simp only [hd, Bool.true_and, notReportedMissing, pathPresent] at h
    simp [h]

theorem scanLoop_names {W : Type} (env : Env W) (w : W) (s : Scanner)
    (entries : List DirEntry) :
    ∀ acc : List UVProject,
      (∀ e ∈ entries,
        (e.IsDir && notReportedMissing env w (env.Join s.ParentDir e.Name)) = true →
        errOf (env.EntryInfo w s.ParentDir e) = none) →
      ∃ projects, scanLoop env w s entries acc = some (acc ++ projects) ∧
        projects.map (fun p => (p.Name, p.Path))
          = (entries.filter
              (fun e => e.IsDir && notReportedMissing env w (env.Join s.ParentDir e.Name))).map
              (fun e => (e.Name, env.Join s.ParentDir e.Name)) := by
  induction entries with
  | nil => intro acc _; exact ⟨[], by simp [scanLoop], rfl⟩
  | cons e rest ih =>
    intro acc hinfo
    have hrest : ∀ x ∈ rest,
        (x.IsDir && notReportedMissing env w (env.Join s.ParentDir x.Name)) = true →
        errOf (env.EntryInfo w s.ParentDir x) = none :=
      fun x hx => hinfo x (List.mem_cons_of_mem _ hx)
    cases h : (e.IsDir && notReportedMissing env w (env.Join s.ParentDir e.Name)) with
    | true =>
      obtain ⟨p, hp, hn, hpath⟩ :=
        scanEntry_of_passing env w s e h (hinfo e (List.mem_cons_self _ _) h)
      obtain ⟨ps, hps, hmap⟩ := ih (acc ++ [p]) hrest
      refine ⟨p :: ps, ?_, ?_⟩
      · simp [scanLoop, hp, hps]
      · simp [List.filter_cons, h, hn, hpath, hmap]
    | false =>
      have hp := scanEntry_of_other env w s e h
      obtain ⟨ps, hps, hmap⟩ := ih acc hrest
      refine ⟨ps, ?_, ?_⟩
      · simp [scanLoop, hp, hps]
      · simp [List.filter_cons, h, hmap]

theorem notReportedMissing_of_definite {W : Type} (env : Env W) (w : W) (dir : String)
    (h : definiteLookups env w dir = true) :
    notReportedMissing env w dir = isProjectDir env w dir := by
  simp only [definiteLookups, definiteLookup, Bool.and_eq_true, beq_iff_eq] at h
  obtain ⟨⟨⟨h1, h2⟩, h3⟩, h4⟩ := h
  simp only [notReportedMissing, isProjectDir, h1, h2, h3, h4]

/-- C12, as the code has it: when the root can be listed and `entry.Info()`
succeeds for the entries that pass the test, `ScanProjects` returns a list
with exactly one project for each entry of the listing that is a directory
and for which the lookup of `.python-version`, or of `pyproject.toml`, or of
both `.venv` and `uv.lock` does not answer that the path does not exist (a
lookup that fails for another reason counts), and nothing else; the projects
are in the order of the listing, each with the name of its entry and the
root joined with that name as path.  When the four lookups of every listed
directory are definite (each succeeds or answers that the path does not
exist), these are exactly the directories that contain `.python-version`, or
`pyproject.toml`, or both `.venv` and `uv.lock`. -/
theorem scanProjects_classifies {W : Type} (env : Env W) (w : W) (s : Scanner)
    (entries : List DirEntry)
    (hroot : IsNotExist (errOf (env.Stat w s.ParentDir)) = false)
    (hlist : env.ReadDir w s.ParentDir = .ok entries)
    (hinfo : ∀ e ∈ entries,
      (e.IsDir && notReportedMissing env w (env.Join s.ParentDir e.Name)) = true →
      errOf (env.EntryInfo w s.ParentDir e) = none) :
    ∃ projects, ScanProjects env w s = some (.ok projects) ∧
      projects.map (fun p => (p.Name, p.Path))
        = (entries.filter
            (fun e => e.IsDir && notReportedMissing env w (env.Join s.ParentDir e.Name))).map
            (fun e => (e.Name, env.Join s.ParentDir e.Name)) ∧
      ((∀ e ∈ entries, e.IsDir = true →
          definiteLookups env w (env.Join s.ParentDir e.Name) = true) →
        projects.map (fun p => (p.Name, p.Path))
          = (entries.filter
              (fun e => e.IsDir && isProjectDir env w (env.Join s.ParentDir e.Name))).map
              (fun e => (e.Name, env.Join s.ParentDir e.Name))) := by
  obtain ⟨projects, hloop, hmap⟩ := scanLoop_names env w s entries [] hinfo
  refine ⟨projects, ?_, hmap, ?_⟩
  · simp only [List.nil_append] at hloop
    simp [ScanProjects, hroot, hlist, hloop]
  · intro hdef
    rw [hmap]
    congr 1
    apply List.filter_congr
    intro e he
    cases hd : e.IsDir with
    | false => simp
    | true => simp [notReportedMissing_of_definite env w _ (hdef e he hd)]

theorem scanProjects_classifies_witness :
    ∃ projects, ScanProjects simEnv scanWorld (NewScanner "/srv/py") = some (.ok projects) ∧
      projects.map (fun p => (p.Name, p.Path))
        = ([({ Name := "data-dir", IsDir := true } : DirEntry),
            { Name := "notes.txt", IsDir := false },
            { Name := "proj-a", IsDir := true },
            { Name := "proj-b", IsDir := true }].filter
            (fun e => e.IsDir && isProjectDir simEnv scanWorld (simEnv.Join "/srv/py" e.Name))).map
            (fun e => (e.Name, simEnv.Join "/srv/py" e.Name)) ∧
      projects.map (fun p => (p.Name, p.Path)) = [("proj-a", "/srv/py/proj-a")] :=
  (scanProjects_classifies simEnv scanWorld (NewScanner "/srv/py")
    [{ Name := "data-dir", IsDir := true },
      { Name := "notes.txt", IsDir := false },
      { Name := "proj-a", IsDir := true },
      { Name := "proj-b", IsDir := true }]
    (by decide) rfl (by decide)).imp
    fun _ h => ⟨h.1, h.2.2 (by decide), h.2.1⟩

/-- C12, counterexample: the root holds the project `proj-a` and an empty
directory `locked` that cannot be searched.  The root is listed, `locked`
contains none of the four names (no lookup in it succeeds), and
`ScanProjects` returns a project for `locked` next to the one for
`proj-a`. -/
theorem scanProjects_denied_counterexample :
    simEnv.ReadDir deniedWorld "/srv/py"
        = .ok [{ Name := "locked", IsDir := true }, { Name := "proj-a", IsDir := true }] ∧
      pathFound simEnv deniedWorld "/srv/py/locked/.python-version" = false ∧
      pathFound simEnv deniedWorld "/srv/py/locked/pyproject.toml" = false ∧
      pathFound simEnv deniedWorld "/srv/py/locked/.venv" = false ∧
      pathFound simEnv deniedWorld "/srv/py/locked/uv.lock" = false ∧
      isProjectDir simEnv deniedWorld (simEnv.Join "/srv/py" "locked") = false ∧
      isProjectDir simEnv deniedWorld (simEnv.Join "/srv/py" "proj-a") = true ∧
      (∃ projects, ScanProjects simEnv deniedWorld (NewScanner "/srv/py") = some (.ok projects) ∧
        projects.map (fun p => (p.Name, p.Path))
          = [("locked", "/srv/py/locked"), ("proj-a", "/srv/py/proj-a")]) :=
  ⟨rfl, by decide, by decide, by decide, by decide, by decide, by decide, ⟨_, rfl, by decide⟩⟩

/-- The panic of `ScanProjects`: when the root can be listed but not searched,
every lookup below it is denied, so every directory passes the test, and
`entry.Info()` fails; the source drops that error and calls `ModTime` on the
nil information. -/
theorem scanProjects_panics_when_info_fails :
    simEnv.ReadDir unsearchableWorld "/srv/py"
        = .ok [{ Name := "data-dir", IsDir := true }, { Name := "notes.txt", IsDir := false },
            { Name := "proj-a", IsDir := true }, { Name := "proj-b", IsDir := true }] ∧
      ScanProjects simEnv unsearchableWorld (NewScanner "/srv/py") = none :=
  ⟨rfl, rfl⟩

/-! ## The version written by the provisioning command -/

theorem splitChars_no_sep (sep : Char) (a : List Char) (ha : sep ∉ a) :
    splitChars sep a = [a] := by
  induction a with
  | nil => rfl
  | cons c cs ih =>
    have hc : ¬ c = sep := fun h => ha (by simp [h])
    have hcs : sep ∉ cs := fun h => ha (List.mem_cons_of_mem _ h)
    simp [splitChars, hc, ih hcs]

theorem splitChars_append_sep (sep : Char) (a r : List Char) (ha : sep ∉ a) :
    splitChars sep (a ++ sep :: r) = a :: splitChars sep r := by
  induction a with
  | nil => simp [splitChars]
  | cons c cs ih =>
    have hc : ¬ c = sep := fun h => ha (by simp [h])
    have hcs : sep ∉ cs := fun h => ha (List.mem_cons_of_mem _ h)
    simp [splitChars, hc, ih hcs]

theorem splitChars_two (sep : Char) (a b t : List Char) (ha : sep ∉ a) (hb : sep ∉ b)
    (ht : t = [] ∨ ∃ r, t = sep :: r) :
    ∃ rest, splitChars sep (a ++ sep :: (b ++ t)) = a :: b :: rest := by
  rw [splitChars_append_sep sep a _ ha]
  rcases ht with ht | ⟨r, ht⟩
  · subst ht
    exact ⟨[], by simp [splitChars_no_sep sep b hb]⟩
  · subst ht
    exact ⟨splitChars sep r, by rw [splitChars_append_sep sep b _ hb]⟩

theorem pythonVersionOf_none (o : String) :
    pythonVersionOf o none
      = ((splitChars (Char.ofNat 32) (TrimSpace o).toList).map String.mk).getD 1 "3.12" := by
  unfold pythonVersionOf Split
  simp only
  generalize (splitChars (Char.ofNat 32) (TrimSpace o).toList).map String.mk = parts
  match parts with
  | [] => rfl
  | [_] => rfl
  | _ :: _ :: _ => simp

theorem pythonVersionOf_of_pieces (o : String) (a b : String) (rest : List (List Char))
    (h : splitChars (Char.ofNat 32) (TrimSpace o).toList = a.toList :: b.toList :: rest) :
    pythonVersionOf o none = b := by
  rw [pythonVersionOf_none, h]
  rfl

theorem fieldsChars_word_start (a : List Char) :
    ∀ (cur rest : List Char), (∀ c ∈ a, isSpace c = false) →
      fieldsChars cur (a ++ rest) = fieldsChars (a.reverse ++ cur) rest := by
  induction a with
  | nil => intro cur rest _; rfl
  | cons c cs ih =>
    intro cur rest ha
    have hc : isSpace c = false := ha c (List.mem_cons_self _ _)
    have hcs : ∀ x ∈ cs, isSpace x = false := fun x hx => ha x (List.mem_cons_of_mem _ hx)
    simp [fieldsChars, hc, ih (c :: cur) rest hcs]

theorem fieldsChars_word (a rest : List Char) (c : Char) (hne : a ≠ [])
    (ha : ∀ x ∈ a, isSpace x = false) (hc : isSpace c = true) :
    fieldsChars [] (a ++ c :: rest) = a :: fieldsChars [] rest := by
  rw [fieldsChars_word_start a [] (c :: rest) ha]
  simp [fieldsChars, hc, hne]

theorem fieldsChars_last_word (a : List Char) (hne : a ≠ [])
    (ha : ∀ x ∈ a, isSpace x = false) : fieldsChars [] a = [a] := by
  have h := fieldsChars_word_start a [] [] ha
  simp only [List.append_nil] at h
  rw [h]
  simp [fieldsChars, hne]

theorem fieldsChars_dropWhile (cs : List Char) :
    fieldsChars [] (cs.dropWhile isSpace) = fieldsChars [] cs := by
  induction cs with
  | nil => rfl
  | cons c cs ih =>
    cases hc : isSpace c with
    | true => simp [List.dropWhile, fieldsChars, hc, ih]
    | false => simp [List.dropWhile, hc]

theorem fieldsChars_trailing (ws : List Char) (hws : ∀ c ∈ ws, isSpace c = true) :
    ∀ (l cur : List Char), fieldsChars cur (l ++ ws) = fieldsChars cur l := by
  have hbase : ∀ cur : List Char, fieldsChars cur ws = fieldsChars cur [] := by
    induction ws with
    | nil => intro cur; rfl
    | cons c cs ih =>
      intro cur
      have hc : isSpace c = true := hws c (List.mem_cons_self _ _)
      have hcs : ∀ x ∈ cs, isSpace x = true := fun x hx => hws x (List.mem_cons_of_mem _ hx)
      have h0 := ih hcs []
      by_cases hcur : cur = []
      · simp [fieldsChars, hc, hcur, h0]
      · simp [fieldsChars, hc, hcur, h0]
  intro l
  induction l with
  | nil => intro cur; simpa using hbase cur
  | cons c cs ih =>
    intro cur
    cases hc : isSpace c with
    | true =>
      by_cases hcur : cur = []
      · simp [fieldsChars, hc, hcur, ih []]
      · simp [fieldsChars, hc, hcur, ih []]
    | false => simp [fieldsChars, hc, ih (c :: cur)]

theorem fieldsChars_trim (cs : List Char) :
    fieldsChars [] (trimSpaceChars cs) = fieldsChars [] cs := by
  unfold trimSpaceChars
  have hsplit : cs.dropWhile isSpace
      = ((cs.dropWhile isSpace).reverse.dropWhile isSpace).reverse ++
        ((cs.dropWhile isSpace).reverse.takeWhile isSpace).reverse := by
    rw [← List.reverse_append, List.takeWhile_append_dropWhile, List.reverse_reverse]
  have hws : ∀ c ∈ ((cs.dropWhile isSpace).reverse.takeWhile isSpace).reverse,
      isSpace c = true := by
    intro c hc
    rw [List.mem_reverse] at hc
    exact (List.mem_takeWhile_imp hc)
  have h := fieldsChars_trailing _ hws
    ((cs.dropWhile isSpace).reverse.dropWhile isSpace).reverse []
  rw [← hsplit] at h
  rw [← h, fieldsChars_dropWhile]

theorem space_isSpace : isSpace (Char.ofNat 32) = true := by decide

/-- C14, as the code has it: the version written to the marker file is the
second piece of the trimmed output of the version query split at every
single space, that is the text between the first and the second space (or
the end) of the trimmed output; that text may be empty and may hold tabs and
newlines.  When the query fails the version is "3.12".  When the trimmed
output holds no space the version is "3.12".  When the trimmed output is a,
one space, b, and then either nothing or a space and more, with no space
inside a and b, the version is b.  If moreover a and b are not empty and
hold no white space at all, b is the second whitespace-separated token of
the output: the version is that token when exactly one space separates the
first two tokens and the second token is followed by a space or ends the
trimmed output.  In every case the command goes on to write the marker file
with that version; the query adds no error of its own. -/
theorem version_is_second_space_piece :
    (∀ (o : String) (e : GoError), pythonVersionOf o (some e) = "3.12") ∧
    (∀ o : String, Char.ofNat 32 ∉ (TrimSpace o).toList → pythonVersionOf o none = "3.12") ∧
    (∀ o a b t : String, TrimSpace o = a ++ " " ++ b ++ t →
      Char.ofNat 32 ∉ a.toList → Char.ofNat 32 ∉ b.toList →
      (t = "" ∨ HasPrefix t " " = true) → pythonVersionOf o none = b) ∧
    (∀ o a b t : String, TrimSpace o = a ++ " " ++ b ++ t →
      a ≠ "" → b ≠ "" →
      (∀ c ∈ a.toList, isSpace c = false) → (∀ c ∈ b.toList, isSpace c = false) →
      (t = "" ∨ HasPrefix t " " = true) →
      (Fields o)[1]? = some b ∧ pythonVersionOf o none = b) ∧
    (∀ (W : Type) (env : Env W) (w w1 w2 w3 : W) (s : Scanner) (projectPath projectName : String)
      (out : String),
      env.MkdirAll w projectPath = (w1, none) →
      RunUVCommand env w1 projectPath ["venv"] = (w2, out, none) →
      env.WriteFile w2 (env.Join projectPath "pyproject.toml") (pyprojectContent projectName)
        = (w3, none) →
      createProject env w s projectPath projectName
        = createProjectFinish env
            (RunUVCommand env w3 projectPath ["venv", "python", "--version"]).1 s projectPath
            projectName
            (pythonVersionOf
              (RunUVCommand env w3 projectPath ["venv", "python", "--version"]).2.1
              (RunUVCommand env w3 projectPath ["venv", "python", "--version"]).2.2)) := by
  have hpiece : ∀ o a b t : String, TrimSpace o = a ++ " " ++ b ++ t →
      Char.ofNat 32 ∉ a.toList → Char.ofNat 32 ∉ b.toList →
      (t = "" ∨ HasPrefix t " " = true) →
      (TrimSpace o).toList = a.toList ++ Char.ofNat 32 :: (b.toList ++ t.toList) ∧
        (t.toList = [] ∨ ∃ r, t.toList = Char.ofNat 32 :: r) ∧
        pythonVersionOf o none = b := by
    intro o a b t htrim ha hb ht
    have hl : (TrimSpace o).toList
        = a.toList ++ Char.ofNat 32 :: (b.toList ++ t.toList) := by
      rw [htrim]
      simp [String.toList]
    have ht2 : t.toList = [] ∨ ∃ r, t.toList = Char.ofNat 32 :: r := by
      rcases ht with ht | ht
      · left; rw [ht]; rfl
      · right
        have hp : [Char.ofNat 32].isPrefixOf t.toList = true := ht
        cases hcs : t.toList with
        | nil => rw [hcs] at hp; simp at hp
        | cons c r =>
          rw [hcs] at hp
          simp at hp
          exact ⟨r, by rw [hp]⟩
    obtain ⟨rest, hrest⟩ := splitChars_two (Char.ofNat 32) a.toList b.toList t.toList ha hb ht2
    rw [← hl] at hrest
    exact ⟨hl, ht2, pythonVersionOf_of_pieces o a b rest hrest⟩
  refine ⟨fun o e => rfl, ?_, ?_, ?_, ?_⟩
  · intro o h
    rw [pythonVersionOf_none, splitChars_no_sep _ _ h]
    rfl
  · intro o a b t htrim ha hb ht
    exact (hpiece o a b t htrim ha hb ht).2.2
  · intro o a b t htrim hane hbne ha hb ht
    have hsa : Char.ofNat 32 ∉ a.toList := fun h => by
      have := ha _ h
      rw [space_isSpace] at this
      exact Bool.noConfusion this
    have hsb : Char.ofNat 32 ∉ b.toList := fun h => by
      have := hb _ h
      rw [space_isSpace] at this
      exact Bool.noConfusion this
    obtain ⟨hl, ht2, hver⟩ := hpiece o a b t htrim hsa hsb ht
    refine ⟨?_, hver⟩
    have hane2 : a.toList ≠ [] := fun h => hane (by
      cases a; simp_all [String.toList])
    have hbne2 : b.toList ≠ [] := fun h => hbne (by
      cases b; simp_all [String.toList])
    have hfields : ∃ rest, fieldsChars [] o.toList = a.toList :: b.toList :: rest := by
      have htr : (TrimSpace o).toList = trimSpaceChars o.toList := rfl
      rw [← fieldsChars_trim, ← htr, hl,
        fieldsChars_word a.toList _ _ hane2 ha space_isSpace]
      rcases ht2 with ht2 | ⟨r, ht2⟩
      · rw [ht2, List.append_nil, fieldsChars_last_word b.toList hbne2 hb]
        exact ⟨[], rfl⟩
      · rw [ht2, fieldsChars_word b.toList _ _ hbne2 hb space_isSpace]
        exact ⟨_, rfl⟩
    obtain ⟨rest, hrest⟩ := hfields
    show ((fieldsChars [] o.toList).map String.mk)[1]? = some b
    rw [hrest]
    simp [String.toList]
  · intro W env w w1 w2 w3 s projectPath projectName out h1 h2 h3
    simp [createProject, h1, h2, h3]

theorem version_is_second_space_piece_witness :
    ((Fields "Python 3.12.0\n")[1]? = some "3.12.0" ∧
        pythonVersionOf "Python 3.12.0\n" none = "3.12.0") ∧
      pythonVersionOf "Python  3.12.0\n" none = "" ∧
      pythonVersionOf "Python 3.12.0\nDone\n" none = "3.12.0\nDone" ∧
      pythonVersionOf "Python\t3.12.0\n" none = "3.12" :=
  ⟨version_is_second_space_piece.2.2.2.1 "Python 3.12.0\n" "Python" "3.12.0" ""
      (by decide) (by decide) (by decide) (by decide) (by decide) (Or.inl rfl),
    version_is_second_space_piece.2.2.1 "Python  3.12.0\n" "Python" "" " 3.12.0"
      (by decide) (by decide) (by decide) (Or.inr (by decide)),
    version_is_second_space_piece.2.2.1 "Python 3.12.0\nDone\n" "Python" "3.12.0\nDone" ""
      (by decide) (by decide) (by decide) (Or.inl rfl),
    version_is_second_space_piece.2.1 "Python\t3.12.0\n" (by decide)⟩

/-- C14, counterexample: the query prints "Python", a tab and "3.12.0"; the
output has two whitespace-separated tokens and the second is "3.12.0", yet
the version is the fallback "3.12".  The query prints "Python", two spaces
and "3.12.0"; the second token is again "3.12.0", the version is the empty
string, and the command run in the world with that query writes an empty
marker file and delivers the provisioning-completed message.  The query
prints "Python 3.12.0" and a second line "Done"; the second token is
"3.12.0" and the version is "3.12.0", a newline and "Done". -/
theorem version_second_token_counterexample :
    Fields "Python\t3.12.0\n" = ["Python", "3.12.0"] ∧
      pythonVersionOf "Python\t3.12.0\n" none = "3.12" ∧
      Fields "Python  3.12.0\n" = ["Python", "3.12.0"] ∧
      pythonVersionOf "Python  3.12.0\n" none = "" ∧
      (createProject simEnv simWorldTwoSpaces (NewScanner "/home/u/projects")
          "/home/u/projects/fresh" "fresh").map
        (fun r => simContent r.2 "/home/u/projects/fresh/.python-version") = some "" ∧
      (∃ projects w,
        createProject simEnv simWorldTwoSpaces (NewScanner "/home/u/projects")
          "/home/u/projects/fresh" "fresh" = some (Msg.projectCreatedMsg projects "fresh", w)) ∧
      Fields "Python 3.12.0\nDone\n" = ["Python", "3.12.0", "Done"] ∧
      pythonVersionOf "Python 3.12.0\nDone\n" none = "3.12.0\nDone" :=
  ⟨by decide, by decide, by decide, by decide, by decide, ⟨_, _, rfl⟩, by decide, by decide⟩

/-! ## First-run setup -/

theorem firstRunAccept_eq {W : Type} (env : Env W) (w : W) (m : Model) (path : String)
    (info : FileInfo) :
    firstRunAccept env w m path info
      = afterValidation env m (validateDirectory env w path info) := by
  unfold firstRunAccept validateDirectory
  cases hd : info.IsDir with
  | false => simp [afterValidation, usingDefault]
  | true =>
    simp only [Bool.not_true, Bool.false_eq_true, if_false]
    rcases hw : env.WriteFile w (env.Join path ".tuv_write_test") "test" with ⟨w1, _ | e⟩
    · simp only [afterValidation]
      rcases hsv : Config.Save env (env.Remove w1 (env.Join path ".tuv_write_test"))
        { ParentDirectory := path, ConfigFileLocation := m.config.ConfigFileLocation }
        with ⟨w3, _ | e⟩
      · simp [hsv]
      · simp [hsv, usingDefault]
    · simp [afterValidation, usingDefault, String.append_assoc]

theorem firstRunResolve_eq {W : Type} (env : Env W) (w : W) (m : Model) (path : String) :
    firstRunResolve env w m path = afterValidation env m (validateResolved env w path) := by
  unfold firstRunResolve validateResolved
  cases hst : env.Stat w path with
  | ok info => simpa using firstRunAccept_eq env w m path info
  | error err =>
    simp only
    cases hne : IsNotExist (some err) with
    | false => simp [afterValidation, usingDefault, String.append_assoc]
    | true =>
      simp only [if_true]
      rcases hmk : env.MkdirAll w path with ⟨w1, _ | e⟩
      · simp only
        cases hst2 : env.Stat w1 path with
        | ok info => simpa using firstRunAccept_eq env w1 m path info
        | error e => simp [afterValidation, usingDefault, String.append_assoc]
      · simp [afterValidation, usingDefault, String.append_assoc]

theorem updateFirstRun_submit {W : Type} (env : Env W) (w : W) (m : Model)
    (hk : m.keyMap = DefaultKeyMap)
    (hne : (env.textInputUpdate m.textInput (keyPress "enter")).1.Value ≠ "") :
    updateFirstRun env w m (keyPress "enter")
      = afterValidation env
          { m with textInput := (env.textInputUpdate m.textInput (keyPress "enter")).1 }
          (validatePath env w (env.textInputUpdate m.textInput (keyPress "enter")).1.Value) := by
  obtain ⟨eq, eu, ed, es⟩ := matches_enter
  simp only [keyPress] at hne ⊢
  unfold updateFirstRun validatePath
  simp only [hk, es, if_true, hne, ne_eq, not_false_eq_true]
  cases hp : HasPrefix (env.textInputUpdate m.textInput (Msg.KeyMsg { str := "enter" })).1.Value
      "~" with
  | false => simpa using firstRunResolve_eq env w _ _
  | true =>
    simp only [if_true]
    cases hh : env.UserHomeDir w with
    | error err => simp [afterValidation, usingDefault, String.append_assoc]
    | ok homeDir => simpa using firstRunResolve_eq env w _ _

theorem useDefaultDirectory_ok {W : Type} (env : Env W) (w w2 w3 : W) (m : Model)
    (home : String) (hh : env.UserHomeDir w = .ok home)
    (hmk : (IsNotExist (errOf (env.Stat w (env.Join home "projects"))) = true ∧
        env.MkdirAll w (env.Join home "projects") = (w2, none)) ∨
      (IsNotExist (errOf (env.Stat w (env.Join home "projects"))) = false ∧ w2 = w))
    (hsv : env.WriteConfig w2 m.config.ConfigFileLocation (env.Join home "projects")
      = (w3, none)) :
    useDefaultDirectory env w m
      = ({ m with
            config := { m.config with ParentDirectory := env.Join home "projects" }
            scanner := NewScanner (env.Join home "projects")
            state := StateMainMenu
            loading := true
            loadingMsg := scanningMsg },
          Cmd.scanProjects (NewScanner (env.Join home "projects")), w3) := by
  unfold useDefaultDirectory
  rcases hmk with ⟨h1, h2⟩ | ⟨h1, h2⟩
  · simp [hh, h1, h2, Config.Save, hsv]
  · subst h2
    simp [hh, h1, Config.Save, hsv]

/-- C15: with the default key map, in the first-run setup, submit of a
non-empty path p (the value of the text input once it has seen the key).
When p passes the validation with the resolved path r, and the save of the
configuration succeeds, the result is the main menu with the loading flag
set, the scan command for r, r as parent directory, and the error field as
it was.  When p fails the validation with the failure e, the home directory
is known, the default directory exists or is created, and the save succeeds,
the result is the main menu with the loading flag set, the scan command for
the default directory, the default directory as parent directory, and the
error field set to e followed by "Using default directory instead.".  A path
without a leading "~" that is an existing directory and takes the test file
passes with r = p; one that is an existing regular file fails with "The
specified path is not a directory.". -/
theorem firstRun_submit {W : Type} (env : Env W) (w : W) (m : Model)
    (hk : m.keyMap = DefaultKeyMap) (hs : m.state = StateFirstRun)
    (hne : (env.textInputUpdate m.textInput (keyPress "enter")).1.Value ≠ "") :
    (∀ (w1 w2 : W) (r : String),
      validatePath env w (env.textInputUpdate m.textInput (keyPress "enter")).1.Value
        = (w1, .ok r) →
      env.WriteConfig w1 m.config.ConfigFileLocation r = (w2, none) →
      Update env w m (keyPress "enter")
        = ({ m with
              textInput := (env.textInputUpdate m.textInput (keyPress "enter")).1
              config := { m.config with ParentDirectory := r }
              scanner := NewScanner r
              state := StateMainMenu
              loading := true
              loadingMsg := scanningMsg },
            Cmd.scanProjects (NewScanner r), w2)) ∧
    (∀ (w1 w2 w3 : W) (e home : String),
      validatePath env w (env.textInputUpdate m.textInput (keyPress "enter")).1.Value
        = (w1, .error e) →
      env.UserHomeDir w1 = .ok home →
      ((IsNotExist (errOf (env.Stat w1 (env.Join home "projects"))) = true ∧
          env.MkdirAll w1 (env.Join home "projects") = (w2, none)) ∨
        (IsNotExist (errOf (env.Stat w1 (env.Join home "projects"))) = false ∧ w2 = w1)) →
      env.WriteConfig w2 m.config.ConfigFileLocation (env.Join home "projects") = (w3, none) →
      Update env w m (keyPress "enter")
        = ({ m with
              textInput := (env.textInputUpdate m.textInput (keyPress "enter")).1
              error := e ++ usingDefault
              config := { m.config with ParentDirectory := env.Join home "projects" }
              scanner := NewScanner (env.Join home "projects")
              state := StateMainMenu
              loading := true
              loadingMsg := scanningMsg },
            Cmd.scanProjects (NewScanner (env.Join home "projects")), w3)) ∧
    (∀ (p : String) (info : FileInfo) (w1 : W), HasPrefix p "~" = false →
      env.Stat w p = .ok info → info.IsDir = true →
      env.WriteFile w (env.Join p ".tuv_write_test") "test" = (w1, none) →
      validatePath env w p = (env.Remove w1 (env.Join p ".tuv_write_test"), .ok p)) ∧
    (∀ (p : String) (info : FileInfo), HasPrefix p "~" = false →
      env.Stat w p = .ok info → info.IsDir = false →
      validatePath env w p = (w, .error "The specified path is not a directory.")) := by
  obtain ⟨eq, eu, ed, es⟩ := matches_enter
  have hupd : Update env w m (keyPress "enter") = updateFirstRun env w m (keyPress "enter") := by
    simp [Update, keyPress, hk, hs, eq]
  rw [hupd, updateFirstRun_submit env w m hk hne]
  refine ⟨?_, ?_, ?_, ?_⟩
  · intro w1 w2 r hv hsv
    rw [hv]
    simp [afterValidation, Config.Save, hsv]
  · intro w1 w2 w3 e home hv hh hmk hsv
    rw [hv]
    simp only [afterValidation]
    exact useDefaultDirectory_ok env w1 w2 w3 _ home hh hmk hsv
  · intro p info w1 hp hst hd hw
    simp [validatePath, validateResolved, validateDirectory, hp, hst, hd, hw]
  · intro p info hp hst hd
    simp [validatePath, validateResolved, validateDirectory, hp, hst, hd]

theorem firstRun_submit_witness :
    ((Update simEnv firstRunWorld (firstRunModel "/data") (keyPress "enter")).1.state
          = StateMainMenu ∧
        (Update simEnv firstRunWorld (firstRunModel "/data") (keyPress "enter")).1.loading
          = true ∧
        (Update simEnv firstRunWorld (firstRunModel "/data") (keyPress "enter")).2.1
          = Cmd.scanProjects (NewScanner "/data") ∧
        (Update simEnv firstRunWorld (firstRunModel "/data")
          (keyPress "enter")).1.config.ParentDirectory = "/data" ∧
        (Update simEnv firstRunWorld (firstRunModel "/data") (keyPress "enter")).1.error
          = (firstRunModel "/data").error) ∧
      ((Update simEnv firstRunWorld (firstRunModel "/home/u/notes.txt")
          (keyPress "enter")).1.state = StateMainMenu ∧
        (Update simEnv firstRunWorld (firstRunModel "/home/u/notes.txt")
          (keyPress "enter")).1.loading = true ∧
        (Update simEnv firstRunWorld (firstRunModel "/home/u/notes.txt")
          (keyPress "enter")).2.1 = Cmd.scanProjects (NewScanner "/home/u/projects") ∧
        (Update simEnv firstRunWorld (firstRunModel "/home/u/notes.txt")
          (keyPress "enter")).1.config.ParentDirectory = "/home/u/projects" ∧
        (Update simEnv firstRunWorld (firstRunModel "/home/u/notes.txt")
          (keyPress "enter")).1.error
          = "The specified path is not a directory.\nUsing default directory instead.") := by
  have h1 := (firstRun_submit simEnv firstRunWorld (firstRunModel "/data") rfl rfl
    (by decide)).1 _ _ _ rfl rfl
  have h2 := (firstRun_submit simEnv firstRunWorld (firstRunModel "/home/u/notes.txt") rfl rfl
    (by decide)).2.1 _ _ _ _ _ rfl rfl (Or.inl ⟨rfl, rfl⟩) rfl
  rw [h1, h2]
  exact ⟨⟨rfl, rfl, rfl, rfl, rfl⟩, ⟨rfl, rfl, rfl, rfl, rfl⟩⟩

/-! ## The lookup of the project detail -/

/-- C16, failing input: the session starts with an existing configuration
and three projects; `Init` launches the scan and its message brings the
three projects; the user opens the project list, moves down twice (index 2)
and presses the rescan key, which launches a scan; two projects are removed
before that scan runs, so its message brings one project; the user presses
select.  The session is then in the project detail with index 2 and one
project: the index is out of range and the lookup of `viewProjectDetail` has
no element to return. -/
theorem detail_lookup_out_of_range :
    startSession.state = StateMainMenu ∧
      Init startSession = Cmd.batch (Cmd.component 0) (Cmd.scanProjects startSession.scanner) ∧
      runCmd simEnv threeProjectsWorld (Cmd.scanProjects startSession.scanner)
        = some (firstScan, threeProjectsWorld) ∧
      listSession.state = StateProjectList ∧ listSession.selectedProject = 2 ∧
      listSession.projects.length = 3 ∧
      (Update simEnv oneProjectWorld listSession (keyPress "s")).2.1
        = Cmd.scanProjects listSession.scanner ∧
      runCmd simEnv oneProjectWorld (Cmd.scanProjects listSession.scanner)
        = some (secondScan, oneProjectWorld) ∧
      detailSession.state = StateProjectDetail ∧ detailSession.selectedProject = 2 ∧
      detailSession.projects.length = 1 ∧ ¬ projectInRange detailSession ∧
      detailProject detailSession = none := by
  refine ⟨by decide, by decide, rfl, by decide, by decide, by decide, by decide, rfl,
    by decide, by decide, by decide, by decide, by decide⟩

end Tuv
